import Mathlib

/-!
# Verification of the yt-video-alerts notification engine (`src/main.py`)

A shallow embedding of the state machine in `src/main.py`: the state-file
loader/sanitizer, the live classifier (`yt_api_video_info`), the pin selector
(`choose_pin_target`), and the per-cycle transition engine (`run_once`) with
its three phases (notify-new, live→video conversion, pin reconciliation).

Modelling conventions:
* Python dicts become association lists (`List (String × α)`) with
  insert-in-place / append-if-absent semantics matching `d[k] = v`,
  `d.setdefault`, `d.pop`, `k in d`.
* A feed entry's missing video id (Python `None`) is modelled as `""`;
  both are falsy at every use site in the source (`if not vid`,
  `if not video_id`).
* Network calls are oracles carried in an `Env` record.  A raised
  `requests` exception inside `yt_api_video_info` is the `Except.error`
  branch; call sites that wrap the call in `try/except` catch it, the
  others propagate it, exactly as in the source.
* The Telegram sink is modelled as reliable: each `send_post` returns a
  fresh message id drawn from a counter threaded through the cycle, and
  every send/edit/pin/unpin/delete *attempt* is recorded as an `Effect`.
  `tg_pin` can fail (oracle `pinOk`), in which case — as in the source —
  the pin state is not updated; `tg_unpin`/`tg_delete` results are ignored
  by the source, so only the attempts are recorded.
* `int(time.time())` is the `now` field of the environment.
-/

/-- Notification kind: a Telegram post announcing a live broadcast or a video. -/
inductive Kind where
  | live
  | video
deriving DecidableEq, Repr

/-- Result of `yt_api_video_info`: resolved live status plus metrics. -/
structure LiveInfo where
  is_live_now : Bool
  concurrent_viewers : Option Int
  view_count : Option Int
deriving DecidableEq, Repr

/-- The `liveStreamingDetails`/`statistics` payload of one item of the
YouTube `videos` API response (numeric fields pre-parsed, as the API always
returns decimal strings). -/
structure LiveDetails where
  actualStartTime : Option String
  actualEndTime : Option String
  concurrentViewers : Option Int
  viewCount : Option Int
deriving DecidableEq, Repr

/-- One RSS feed entry as produced by `fetch_feed_entries`.
A missing `yt_videoid` (Python `None`) is modelled as `""`. -/
structure Entry where
  vid : String
  title : String
  link : String
  thumb : Option String
  published_epoch : Int
deriving DecidableEq, Repr

/-- A side effect executed against the Telegram transport during one cycle.
`send` records `send_post` (vid, kind, returned message id); `editMsg` is the
caption-edit capability of the transport (never emitted by `src/main.py`,
which converts live→video by posting anew and deleting, not by editing);
the rest record `tg_delete` / `tg_pin` / `tg_unpin` attempts. -/
inductive Effect where
  | send (vid : String) (kind : Kind) (mid : Int)
  | editMsg (mid : Int)
  | deleteMsg (mid : Int)
  | pinMsg (mid : Int)
  | unpinMsg (mid : Int)
deriving DecidableEq, Repr

/-- The sanitized durable state document (`state.json` after `sanitize_state`):
the four dict substructures, the cursor, and the pin-tracking fields. -/
structure StateDoc where
  notified : List (String × Int)
  msg_live : List (String × Int)
  msg_video : List (String × Int)
  last_kind : List (String × Kind)
  last_seen_epoch : Int
  pinned_message_id : Option Int
  pinned_vid : Option String
  pinned_kind : Option Kind
deriving DecidableEq, Repr

/-- The environment-variable configuration read at module load. -/
structure Config where
  pin_latest : Bool
  delete_live_when_finalized : Bool
  baseline_only : Bool
deriving DecidableEq, Repr

/-- The observable world for one polling cycle: the fetched feed entries
(in feed order, assumed newest-first by the source's comment), the YouTube
probe oracle (`none` = the HTTP request raised; `some none` = empty `items`
in the response; `some (some d)` = one item with payload `d`), the current
wall-clock epoch, and the pin-success oracle. -/
structure Env where
  entries : List Entry
  probe : String → Option (Option LiveDetails)
  now : Int
  pinOk : Int → Bool

/-! ## Python dict operations on association lists -/

/-- `d.get(k)` / `d[k]` lookup: first binding of the key. -/
def dictFind {α : Type} : List (String × α) → String → Option α
  | [], _ => none
  | (k', v) :: rest, k => if k' = k then some v else dictFind rest k

/-- `k in d`. -/
def dictMem {α : Type} (m : List (String × α)) (k : String) : Bool :=
  (dictFind m k).isSome

/-- `d[k] = v`: replace the binding in place, or append a new one. -/
def dictInsert {α : Type} : List (String × α) → String → α → List (String × α)
  | [], k, v => [(k, v)]
  | (k', v') :: rest, k, v =>
    if k' = k then (k, v) :: rest else (k', v') :: dictInsert rest k v

/-- `d.setdefault(k, v)`. -/
def dictSetdefault {α : Type} (m : List (String × α)) (k : String) (v : α) :
    List (String × α) :=
  if dictMem m k then m else m ++ [(k, v)]

/-- `d.pop(k, None)`. -/
def dictErase {α : Type} (m : List (String × α)) (k : String) :
    List (String × α) :=
  m.filter (fun p => !decide (p.1 = k))

/-! ## Live classifier -/

/-- The classification at the heart of `yt_api_video_info`:
`is_live_now = bool(actualStartTime) and not bool(actualEndTime)`. -/
def classify (d : LiveDetails) : LiveInfo :=
  { is_live_now := d.actualStartTime.isSome && d.actualEndTime.isNone
    concurrent_viewers := d.concurrentViewers
    view_count := d.viewCount }

/-- `yt_api_video_info(video_id)`: empty id → not live without a request;
HTTP failure (`probe = none`) → raised exception (`Except.error`);
empty `items` → not live; otherwise classify the payload. -/
def yt_api_video_info (env : Env) (video_id : String) : Except Unit LiveInfo :=
  if video_id = "" then .ok ⟨false, none, none⟩
  else
    match env.probe video_id with
    | none => .error ()
    | some none => .ok ⟨false, none, none⟩
    | some (some d) => .ok (classify d)

/-- Whether a successful probe of `v` reports it live right now. -/
def probeIsLive (env : Env) (v : String) : Bool :=
  match yt_api_video_info env v with
  | .ok i => i.is_live_now
  | .error _ => false

/-- Whether a successful probe of `v` reports it *not* live (a failed probe
satisfies neither `probeIsLive` nor `probeOkNotLive`). -/
def probeOkNotLive (env : Env) (v : String) : Bool :=
  match yt_api_video_info env v with
  | .ok i => !i.is_live_now
  | .error _ => false

/-! ## Pin selector -/

/-- The scan loop of `choose_pin_target`: first entry (in list order) whose
probe succeeds and reports live; probe failures are caught and skipped. -/
def cptLoop (env : Env) : List Entry → Option (Entry × LiveInfo)
  | [] => none
  | it :: rest =>
    match yt_api_video_info env it.vid with
    | .error _ => cptLoop env rest
    | .ok info => if info.is_live_now then some (it, info) else cptLoop env rest

/-- `choose_pin_target(entries)`: the first live entry if any, else
`entries[0]` re-probed (this final probe is *not* wrapped in `try`, so its
failure raises; and an empty list raises `IndexError`). -/
def choose_pin_target (env : Env) (entries : List Entry) :
    Except Unit (Entry × LiveInfo) :=
  match cptLoop env entries with
  | some r => .ok r
  | none =>
    match entries with
    | [] => .error ()
    | it :: _ =>
      match yt_api_video_info env it.vid with
      | .error e => .error e
      | .ok info => .ok (it, info)

/-! ## Transition engine: the three phases of `run_once` -/

/-- Body of the notify-new loop (`src/main.py:269-295`) for one item:
skip empty ids and already-notified ids; probe (an exception propagates!);
if a message of the same kind already exists just mark notified; otherwise
`send_post` and record the notification. -/
def step1Item (env : Env) (s : StateDoc) (c : Int) (it : Entry) :
    Except Unit (StateDoc × Int × List Effect) :=
  if it.vid = "" then .ok (s, c, [])
  else if dictMem s.notified it.vid then .ok (s, c, [])
  else
    match yt_api_video_info env it.vid with
    | .error e => .error e
    | .ok info =>
      let kind := if info.is_live_now then Kind.live else Kind.video
      if kind = Kind.live ∧ dictMem s.msg_live it.vid then
        .ok ({ s with notified := dictInsert s.notified it.vid env.now }, c, [])
      else if kind = Kind.video ∧ dictMem s.msg_video it.vid then
        .ok ({ s with notified := dictInsert s.notified it.vid env.now }, c, [])
      else
        let mid := c
        let s1 := { s with
          notified := dictInsert s.notified it.vid env.now
          last_kind := dictInsert s.last_kind it.vid kind }
        let s2 := if kind = Kind.live
          then { s1 with msg_live := dictInsert s1.msg_live it.vid mid }
          else { s1 with msg_video := dictInsert s1.msg_video it.vid mid }
        .ok (s2, c + 1, [Effect.send it.vid kind mid])

/-- The notify-new loop over the sorted, cursor-filtered item list. -/
def step1 (env : Env) : List Entry → StateDoc → Int →
    Except Unit (StateDoc × Int × List Effect)
  | [], s, c => .ok (s, c, [])
  | it :: rest, s, c =>
    match step1Item env s c it with
    | .error e => .error e
    | .ok (s', c', e) =>
      match step1 env rest s' c' with
      | .error e2 => .error e2
      | .ok (s'', c'', e') => .ok (s'', c'', e ++ e')

/-- Body of the conversion loop (`src/main.py:302-330`) for one snapshot pair
`(vid, live_mid)`: a failed re-probe is caught and skipped; if the broadcast
ended, ensure a video post exists (only when the item is still in the feed),
then optionally unpin/delete the old live post and drop its record. -/
def step2Item (cfg : Config) (env : Env) (s : StateDoc) (c : Int)
    (p : String × Int) : StateDoc × Int × List Effect :=
  let vid := p.1
  let live_mid := p.2
  match yt_api_video_info env vid with
  | .error _ => (s, c, [])
  | .ok info_now =>
    if info_now.is_live_now then (s, c, [])
    else
      let (s1, c1, effs) :=
        if !dictMem s.msg_video vid then
          match env.entries.find? (fun x => decide (x.vid = vid)) with
          | some _item =>
            let mid := c
            ({ s with
                msg_video := dictInsert s.msg_video vid mid
                last_kind := dictInsert s.last_kind vid Kind.video
                notified := dictSetdefault s.notified vid env.now },
             c + 1, [Effect.send vid Kind.video mid])
          | none => (s, c, [])
        else (s, c, [])
      if cfg.delete_live_when_finalized && dictMem s1.msg_video vid then
        let effs1 := if s1.pinned_message_id = some live_mid
          then effs ++ [Effect.unpinMsg live_mid] else effs
        ({ s1 with msg_live := dictErase s1.msg_live vid }, c1,
         effs1 ++ [Effect.deleteMsg live_mid])
      else (s1, c1, effs)

/-- The conversion loop over a snapshot of `state["msg_live"].items()`. -/
def step2 (cfg : Config) (env : Env) : List (String × Int) → StateDoc → Int →
    StateDoc × Int × List Effect
  | [], s, c => (s, c, [])
  | p :: rest, s, c =>
    let r := step2Item cfg env s c p
    let r' := step2 cfg env rest r.1 r.2.1
    (r'.1, r'.2.1, r.2.2 ++ r'.2.2)

/-- The ensure-message step of pin reconciliation (`src/main.py:338-352`):
look up (or create by `send_post`) the message of the target kind, returning
the updated state, counter, effects and the message id to pin. -/
def step3ensure (env : Env) (islive : Bool) (target : Entry) (s : StateDoc)
    (c : Int) : StateDoc × Int × List Effect × Int :=
  if islive then
    match dictFind s.msg_live target.vid with
    | some mid => (s, c, ([] : List Effect), mid)
    | none =>
      let mid := c
      ({ s with
          msg_live := dictInsert s.msg_live target.vid mid
          last_kind := dictInsert s.last_kind target.vid Kind.live
          notified := dictSetdefault s.notified target.vid env.now },
       c + 1, [Effect.send target.vid Kind.live mid], mid)
  else
    match dictFind s.msg_video target.vid with
    | some mid => (s, c, ([] : List Effect), mid)
    | none =>
      let mid := c
      ({ s with
          msg_video := dictInsert s.msg_video target.vid mid
          last_kind := dictInsert s.last_kind target.vid Kind.video
          notified := dictSetdefault s.notified target.vid env.now },
       c + 1, [Effect.send target.vid Kind.video mid], mid)

/-- The re-pin step of pin reconciliation (`src/main.py:354-362`): when the
target message id differs from the recorded pin, unpin the truthy previous
pin, attempt the new pin, and record the pin fields only on success. -/
def step3pin (env : Env) (target : Entry) (tkind : Kind) (s1 : StateDoc)
    (c1 : Int) (effs : List Effect) (pin_mid : Int) :
    StateDoc × Int × List Effect :=
  let prev := s1.pinned_message_id
  if prev = some pin_mid then (s1, c1, effs)
  else
    let unpinEffs :=
      match prev with
      | some p2 => if p2 ≠ 0 then [Effect.unpinMsg p2] else []
      | none => []
    let effs1 := effs ++ unpinEffs ++ [Effect.pinMsg pin_mid]
    if env.pinOk pin_mid then
      ({ s1 with
          pinned_message_id := some pin_mid
          pinned_vid := some target.vid
          pinned_kind := some tkind }, c1, effs1)
    else (s1, c1, effs1)

/-- Pin reconciliation (`src/main.py:333-362`): choose the target (an
uncaught probe failure propagates), ensure a message of the target kind
exists (this may `send_post`), then reconcile the recorded pin. -/
def step3 (cfg : Config) (env : Env) (s : StateDoc) (c : Int) :
    Except Unit (StateDoc × Int × List Effect) :=
  if !cfg.pin_latest then .ok (s, c, [])
  else
    match choose_pin_target env env.entries with
    | .error e => .error e
    | .ok (target, tinfo) =>
      let tkind := if tinfo.is_live_now then Kind.live else Kind.video
      let ensured := step3ensure env tinfo.is_live_now target s c
      .ok (step3pin env target tkind ensured.1 ensured.2.1 ensured.2.2.1
        ensured.2.2.2)

/-- `sorted(entries, key=lambda x: x.get("published_epoch", 0))` — a stable
ascending sort, modelled by insertion sort. -/
def insertByEpoch (x : Entry) : List Entry → List Entry
  | [] => [x]
  | y :: ys =>
    if x.published_epoch ≤ y.published_epoch then x :: y :: ys
    else y :: insertByEpoch x ys

/-- Stable ascending-by-`published_epoch` sort of the feed entries. -/
def sortByEpoch : List Entry → List Entry
  | [] => []
  | x :: xs => insertByEpoch x (sortByEpoch xs)

/-- `new_items`: the sorted entries strictly newer than the cursor. -/
def newItems (env : Env) (last : Int) : List Entry :=
  (sortByEpoch env.entries).filter (fun it => decide (last < it.published_epoch))

/-- One full evaluation cycle (`run_once`), from the already-sanitized state
document, threading the fresh-message-id counter `c`.  Returns the state the
cycle persists and the ordered side effects it executed, or `Except.error`
when an uncaught exception aborts the cycle (in which case nothing is
persisted). -/
def run_once (cfg : Config) (env : Env) (s : StateDoc) (c : Int) :
    Except Unit (StateDoc × Int × List Effect) :=
  match env.entries with
  | [] => .ok (s, c, [])
  | e0 :: _ =>
    let newest := e0.published_epoch
    if cfg.baseline_only ∨ s.last_seen_epoch = 0 then
      .ok ({ s with last_seen_epoch := if newest ≠ 0 then newest else env.now },
           c, [])
    else
      let last := s.last_seen_epoch
      match step1 env (newItems env last) s c with
      | .error e => .error e
      | .ok (s1, c1, e1) =>
        let s1' := if last < newest then { s1 with last_seen_epoch := newest } else s1
        let r2 := step2 cfg env s1'.msg_live s1' c1
        match step3 cfg env r2.1 r2.2.1 with
        | .error e => .error e
        | .ok (s3, c3, e3) => .ok (s3, c3, e1 ++ r2.2.2 ++ e3)

/-- Iterated cycles against a fixed observed world, concatenating effects. -/
def run_cycles (cfg : Config) (env : Env) : Nat → StateDoc → Int →
    Except Unit (StateDoc × Int × List Effect)
  | 0, s, c => .ok (s, c, [])
  | n + 1, s, c =>
    match run_once cfg env s c with
    | .error e => .error e
    | .ok (s', c', effs) =>
      match run_cycles cfg env n s' c' with
      | .error e => .error e
      | .ok (s'', c'', effs') => .ok (s'', c'', effs ++ effs')

/-- Does this effect post (vid, kind)? -/
def isSendOf (vid : String) (k : Kind) : Effect → Bool
  | .send v k2 _ => decide (v = vid) && decide (k2 = k)
  | _ => false

/-- Number of posts for the pair (vid, kind) in an effect trace. -/
def countSend (effs : List Effect) (vid : String) (k : Kind) : Nat :=
  effs.countP (isSendOf vid k)

/-! ## State Store: JSON documents, loader, sanitizer, saver -/

/-- A JSON value as `json.load` produces it (floats do not occur in any
document this program ever writes and are not modelled). -/
inductive JValue where
  | jnull
  | jbool (b : Bool)
  | jint (n : Int)
  | jstr (s : String)
  | jarr (xs : List JValue)
  | jobj (kvs : List (String × JValue))

/-- Python `isinstance(v, int)` — which is also true for `bool`, since
`bool` is a subclass of `int`. -/
def pyIsInstInt : JValue → Bool
  | .jint _ => true
  | .jbool _ => true
  | _ => false

/-- Python `isinstance(v, dict)`. -/
def pyIsDict : JValue → Bool
  | .jobj _ => true
  | _ => false

/-- Python `int(v)` on a JSON value: identity on ints, `True/False → 1/0`,
decimal-string parse on strings, and an exception (`none`) otherwise.
(String parsing is modelled by `String.toInt?`; the sanitizer only needs
that it either yields an integer or fails.) -/
def pyInt? : JValue → Option Int
  | .jint n => some n
  | .jbool b => some (if b then 1 else 0)
  | .jstr s => s.toInt?
  | _ => none

/-- `ensure_dict(k)` from `sanitize_state`: force the key to a dict. -/
def ensure_dict (st : List (String × JValue)) (k : String) :
    List (String × JValue) :=
  match dictFind st k with
  | some (.jobj _) => st
  | _ => dictInsert st k (.jobj [])

/-- The `last_seen_epoch` repair of `sanitize_state` (`src/main.py:66-67`):
`if not isinstance(state.get("last_seen_epoch", 0), int): state[...] = 0`. -/
def fix_last_seen (st : List (String × JValue)) : List (String × JValue) :=
  if pyIsInstInt ((dictFind st "last_seen_epoch").getD (.jint 0)) then st
  else dictInsert st "last_seen_epoch" (.jint 0)

/-- The `pinned_message_id` repair of `sanitize_state`
(`src/main.py:70-74`): keep ints (and bools), convert convertible values
with `int(...)`, and pop the key when conversion raises. -/
def fix_pinned (st : List (String × JValue)) : List (String × JValue) :=
  match dictFind st "pinned_message_id" with
  | none => st
  | some pv =>
    if pyIsInstInt pv then st
    else
      match pyInt? pv with
      | some n => dictInsert st "pinned_message_id" (.jint n)
      | none => dictErase st "pinned_message_id"

/-- `sanitize_state(state)` (`src/main.py:53-76`): self-heal an arbitrary
loaded document into the shape the engine assumes. -/
def sanitize_state (v : JValue) : JValue :=
  let st := match v with
    | .jobj kvs => kvs
    | _ => []
  .jobj (fix_pinned (fix_last_seen
    (ensure_dict (ensure_dict (ensure_dict (ensure_dict st "notified")
      "msg_live") "msg_video") "last_kind")))

/-- `load_state()` (`src/main.py:38-45`): `raw = none` models a missing
file, unreadable bytes or a JSON parse error — all of which the source
catches, returning `{}`; otherwise the parsed value is returned as-is. -/
def load_state (raw : Option JValue) : JValue :=
  match raw with
  | none => .jobj []
  | some v => v

/-- A filesystem operation performed while persisting state. -/
inductive FsOp where
  | write (path : String) (content : JValue)
  | rename (src : String) (tgt : String)

/-- The state file path (`STATE_FILE`). -/
def STATE_FILE : String := "state.json"

/-- `save_state(state)` (`src/main.py:48-50`) as the sequence of filesystem
operations it performs: a single direct `open(STATE_FILE, "w")` + dump. -/
def save_state (st : JValue) : List FsOp :=
  [.write STATE_FILE st]

/-- Modelled from the spec: the `save(doc)` contract of §4.5 — the
write-to-temp-then-rename discipline the spec requires but `src/main.py`'s
`save_state` does not implement.  Present only to state the refinement
claim about atomic saves. -/
def save_state_spec (st : JValue) : List FsOp :=
  [.write (STATE_FILE ++ ".tmp") st, .rename (STATE_FILE ++ ".tmp") STATE_FILE]

/-- Is this filesystem operation a rename? -/
def isRename : FsOp → Bool
  | .rename _ _ => true
  | _ => false

/-- Is this an object (dict) value? -/
def isDictOpt : Option JValue → Bool
  | some (.jobj _) => true
  | _ => false

/-- Is this a JSON integer (not a boolean)? -/
def isJIntOpt : Option JValue → Bool
  | some (.jint _) => true
  | _ => false

/-- Key lookup on a JSON object value. -/
def jget (v : JValue) (k : String) : Option JValue :=
  match v with
  | .jobj kvs => dictFind kvs k
  | _ => none

/-- The canonical document shape `sanitize_state` establishes: the four
substructures are dicts, `last_seen_epoch` passes Python's `isinstance(int)`
check (which also admits booleans), and `pinned_message_id` is absent or
passes that check. -/
def canonicalShape (v : JValue) : Bool :=
  match v with
  | .jobj st =>
    isDictOpt (dictFind st "notified") &&
    isDictOpt (dictFind st "msg_live") &&
    isDictOpt (dictFind st "msg_video") &&
    isDictOpt (dictFind st "last_kind") &&
    pyIsInstInt ((dictFind st "last_seen_epoch").getD (.jint 0)) &&
    (match dictFind st "pinned_message_id" with
     | none => true
     | some pv => pyIsInstInt pv)
  | _ => false

/-! ## Concrete fixtures used by witnesses and counterexamples -/

/-- World whose probe raises for "x" and returns an empty item list for "y". -/
def envMixed : Env :=
  ⟨[], fun v => if v = "y" then some none else none, 0, fun _ => true⟩



/-- An ongoing broadcast payload: started, not ended. -/
def liveD : LiveDetails := ⟨some "2024-01-01T10:00:00Z", none, some 3, none⟩

/-- A finished broadcast payload: started and ended. -/
def doneD : LiveDetails := ⟨some "2024-01-01T10:00:00Z",
  some "2024-01-01T11:00:00Z", none, some 7⟩

/-- Feed entry "a", published at epoch 10. -/
def entryA : Entry := ⟨"a", "A", "https://youtu.be/a", none, 10⟩

/-- Feed entry "b", published at epoch 20. -/
def entryB : Entry := ⟨"b", "B", "https://youtu.be/b", none, 20⟩

/-- Feed entry "a", published at epoch 50. -/
def entryA50 : Entry := ⟨"a", "A", "https://youtu.be/a", none, 50⟩

/-- Default configuration (`PIN_LATEST=1`, `DELETE_LIVE_WHEN_FINALIZED=1`). -/
def cfgPin : Config := ⟨true, true, false⟩

/-- Configuration with pinning disabled. -/
def cfgNoPin : Config := ⟨false, true, false⟩

/-- World where "b" is broadcasting and "a" is a finished video. -/
def envLive : Env :=
  ⟨[entryB, entryA],
   fun v => if v = "b" then some (some liveD)
     else if v = "a" then some (some doneD) else none,
   555, fun _ => true⟩

/-- Same feed, after "b"'s broadcast ended. -/
def envDone : Env :=
  ⟨[entryB, entryA],
   fun v => if v = "b" then some (some doneD)
     else if v = "a" then some (some doneD) else none,
   666, fun _ => true⟩

/-- Same feed, but the probe of "b" raises (HTTP failure). -/
def envFail : Env :=
  ⟨[entryB, entryA],
   fun v => if v = "b" then none
     else if v = "a" then some (some doneD) else none,
   700, fun _ => true⟩

/-- Feed with a single entry whose probe always raises. -/
def envC4 : Env := ⟨[entryA], fun _ => none, 555, fun _ => true⟩

/-- Feed holding only the epoch-50 entry, probed as not live. -/
def envC5 : Env :=
  ⟨[entryA50], fun v => if v = "a" then some (some doneD) else none,
   555, fun _ => true⟩

/-- Unsorted feed (oldest first), both entries probed as live right now. -/
def envC7 : Env :=
  ⟨[entryA, entryB], fun _ => some (some liveD), 800, fun _ => true⟩

/-- The empty state document. -/
def sEmpty : StateDoc := ⟨[], [], [], [], 0, none, none, none⟩

/-- A state with an established baseline cursor of 5 and nothing notified. -/
def sBase : StateDoc := ⟨[], [], [], [], 5, none, none, none⟩

/-- A state whose cursor (100) is ahead of every feed entry. -/
def sAhead : StateDoc := ⟨[], [], [], [], 100, none, none, none⟩

/-- A state that already notified "a" as a video and has pin id 99 recorded. -/
def sPin : StateDoc := ⟨[("a", 1)], [], [("a", 7)], [("a", Kind.video)],
  100, some 99, some "a", some Kind.video⟩

/-! ## Association-list dictionary lemmas -/

theorem dictFind_insert {α : Type} (m : List (String × α)) (k : String) (v : α)
    (q : String) :
    dictFind (dictInsert m k v) q = if k = q then some v else dictFind m q := by
  induction m with
  | nil => by_cases h : k = q <;> simp [dictInsert, dictFind, h]
  | cons p rest ih =>
    obtain ⟨k', v'⟩ := p
    by_cases h : k' = k
    · subst h
      by_cases hq : k' = q <;> simp [dictInsert, dictFind, hq]
    · by_cases hq : k' = q
      · subst hq
        have : ¬ k = k' := fun hc => h hc.symm
        simp [dictInsert, dictFind, h, this]
      · simp [dictInsert, dictFind, h, hq, ih]

theorem dictFind_erase {α : Type} (m : List (String × α)) (k q : String) :
    dictFind (dictErase m k) q = if q = k then none else dictFind m q := by
  induction m with
  | nil => by_cases h : q = k <;> simp [dictErase, dictFind, h]
  | cons p rest ih =>
    obtain ⟨k', v'⟩ := p
    by_cases h : k' = k
    · have hkq : k' = q → q = k := fun hq => hq ▸ h ▸ rfl
      by_cases hq : k' = q
      · have : q = k := hkq hq
        simp [dictErase, dictFind, h, hq, this] at ih ⊢
        exact ih
      · have hq' : ¬ k = q := fun hc => hq (h.trans hc)
        simp [dictErase, dictFind, h, hq, hq'] at ih ⊢
        exact ih
    · by_cases hq : k' = q
      · have : ¬ q = k := fun hc => h (hq.trans hc)
        simp [dictErase, dictFind, h, hq, this]
      · simp [dictErase, dictFind, h, hq] at ih ⊢
        exact ih

theorem dictFind_append {α : Type} (m1 m2 : List (String × α)) (q : String) :
    dictFind (m1 ++ m2) q =
      match dictFind m1 q with
      | some v => some v
      | none => dictFind m2 q := by
  induction m1 with
  | nil => simp [dictFind]
  | cons p rest ih =>
    obtain ⟨k', v'⟩ := p
    by_cases h : k' = q <;> simp [dictFind, h, ih]

theorem dictFind_setdefault {α : Type} (m : List (String × α)) (k : String)
    (v : α) (q : String) :
    dictFind (dictSetdefault m k v) q =
      match dictFind m q with
      | some w => some w
      | none => if k = q then some v else none := by
  unfold dictSetdefault dictMem
  by_cases hm : (dictFind m k).isSome
  · simp [hm]
    cases hfq : dictFind m q with
    | some w => simp
    | none =>
      by_cases hkq : k = q
      · subst hkq
        rw [hfq] at hm
        simp at hm
      · simp [hkq]
  · simp [hm]
    rw [dictFind_append]
    cases hfq : dictFind m q with
    | some w => simp
    | none =>
      by_cases hkq : k = q <;> simp [dictFind, hkq]

theorem dictMem_insert {α : Type} (m : List (String × α)) (k : String) (v : α)
    (q : String) :
    dictMem (dictInsert m k v) q = (decide (k = q) || dictMem m q) := by
  unfold dictMem
  rw [dictFind_insert]
  by_cases h : k = q <;> simp [h]

theorem dictMem_erase {α : Type} (m : List (String × α)) (k q : String) :
    dictMem (dictErase m k) q = (!decide (q = k) && dictMem m q) := by
  unfold dictMem
  rw [dictFind_erase]
  by_cases h : q = k <;> simp [h]

theorem dictMem_setdefault {α : Type} (m : List (String × α)) (k : String)
    (v : α) (q : String) :
    dictMem (dictSetdefault m k v) q = (decide (k = q) || dictMem m q) := by
  unfold dictMem
  rw [dictFind_setdefault]
  cases hfq : dictFind m q with
  | some w => simp
  | none => by_cases h : k = q <;> simp [h]

/-! ## Send-counting lemmas -/

theorem countSend_append (a b : List Effect) (v : String) (k : Kind) :
    countSend (a ++ b) v k = countSend a v k + countSend b v k := by
  simp [countSend, List.countP_append]

theorem countSend_nil (v : String) (k : Kind) : countSend [] v k = 0 := rfl

theorem countSend_single_send (w : String) (kk : Kind) (mid : Int)
    (v : String) (k : Kind) :
    countSend [Effect.send w kk mid] v k =
      if w = v ∧ kk = k then 1 else 0 := by
  by_cases h1 : w = v
  · by_cases h2 : kk = k <;>
      simp [countSend, List.countP, List.countP.go, isSendOf, h1, h2]
  · simp [countSend, List.countP, List.countP.go, isSendOf, h1]

theorem countSend_single_other (e : Effect) (h : ∀ w kk mid, e ≠ .send w kk mid)
    (v : String) (k : Kind) : countSend [e] v k = 0 := by
  cases e with
  | send w kk mid => exact absurd rfl (h w kk mid)
  | editMsg m => simp [countSend, List.countP, List.countP.go, isSendOf]
  | deleteMsg m => simp [countSend, List.countP, List.countP.go, isSendOf]
  | pinMsg m => simp [countSend, List.countP, List.countP.go, isSendOf]
  | unpinMsg m => simp [countSend, List.countP, List.countP.go, isSendOf]

/-! ## Phase-1 (notify-new) loop lemmas -/

/-- Exhaustive outcome characterization of one `step1Item` on success:
either nothing was posted (the state is unchanged except possibly
`notified[vid]`), or exactly one post of the item's own id went out, with
the guards that were checked recorded. -/
theorem step1Item_spec (env : Env) (s : StateDoc) (c : Int) (it : Entry)
    {s' : StateDoc} {c' : Int} {effs : List Effect}
    (h : step1Item env s c it = .ok (s', c', effs)) :
    (effs = [] ∧ c' = c ∧ s'.msg_live = s.msg_live ∧ s'.msg_video = s.msg_video ∧
      s'.pinned_message_id = s.pinned_message_id ∧
      s'.last_seen_epoch = s.last_seen_epoch ∧
      (s'.notified = s.notified ∨
        s'.notified = dictInsert s.notified it.vid env.now)) ∨
    (∃ kind, effs = [Effect.send it.vid kind c] ∧ c' = c + 1 ∧
      it.vid ≠ "" ∧ dictMem s.notified it.vid = false ∧
      s'.notified = dictInsert s.notified it.vid env.now ∧
      s'.pinned_message_id = s.pinned_message_id ∧
      s'.last_seen_epoch = s.last_seen_epoch ∧
      ((kind = Kind.live ∧ probeIsLive env it.vid = true ∧
        dictMem s.msg_live it.vid = false ∧
        s'.msg_live = dictInsert s.msg_live it.vid c ∧
        s'.msg_video = s.msg_video) ∨
       (kind = Kind.video ∧ probeOkNotLive env it.vid = true ∧
        dictMem s.msg_video it.vid = false ∧
        s'.msg_video = dictInsert s.msg_video it.vid c ∧
        s'.msg_live = s.msg_live))) := by
  unfold step1Item at h
  by_cases hvid : it.vid = ""
  · rw [if_pos hvid] at h
    simp only [Except.ok.injEq, Prod.mk.injEq] at h
    obtain ⟨rfl, rfl, rfl⟩ := h
    exact Or.inl ⟨rfl, rfl, rfl, rfl, rfl, rfl, Or.inl rfl⟩
  · rw [if_neg hvid] at h
    by_cases hnot : dictMem s.notified it.vid = true
    · rw [if_pos hnot] at h
      simp only [Except.ok.injEq, Prod.mk.injEq] at h
      obtain ⟨rfl, rfl, rfl⟩ := h
      exact Or.inl ⟨rfl, rfl, rfl, rfl, rfl, rfl, Or.inl rfl⟩
    · rw [if_neg hnot] at h
      cases hyt : yt_api_video_info env it.vid with
      | error e => rw [hyt] at h; cases h
      | ok info =>
        rw [hyt] at h
        simp only at h
        cases hlive : info.is_live_now with
        | true =>
          have hkind : (if info.is_live_now then Kind.live else Kind.video) =
              Kind.live := by simp [hlive]
          rw [hkind] at h
          have hpl : probeIsLive env it.vid = true := by
            simp [probeIsLive, hyt, hlive]
          by_cases hml : dictMem s.msg_live it.vid = true
          · rw [if_pos ⟨rfl, hml⟩] at h
            simp only [Except.ok.injEq, Prod.mk.injEq] at h
            obtain ⟨rfl, rfl, rfl⟩ := h
            exact Or.inl ⟨rfl, rfl, rfl, rfl, rfl, rfl, Or.inr rfl⟩
          · have hc1 : ¬ (Kind.live = Kind.live ∧ dictMem s.msg_live it.vid = true) :=
              fun hc => hml hc.2
            have hc2 : ¬ (Kind.live = Kind.video ∧ dictMem s.msg_video it.vid = true) :=
              fun hc => by cases hc.1
            rw [if_neg hc1, if_neg hc2] at h
            simp only [Except.ok.injEq, Prod.mk.injEq] at h
            obtain ⟨rfl, rfl, rfl⟩ := h
            exact Or.inr ⟨Kind.live, rfl, rfl, hvid,
              Bool.not_eq_true _ ▸ hnot, rfl, rfl, rfl,
              Or.inl ⟨rfl, hpl, Bool.not_eq_true _ ▸ hml, rfl, rfl⟩⟩
        | false =>
          have hkind : (if info.is_live_now then Kind.live else Kind.video) =
              Kind.video := by simp [hlive]
          rw [hkind] at h
          have hpl : probeOkNotLive env it.vid = true := by
            simp [probeOkNotLive, hyt, hlive]
          have hc1 : ¬ (Kind.video = Kind.live ∧ dictMem s.msg_live it.vid = true) :=
            fun hc => by cases hc.1
          rw [if_neg hc1] at h
          by_cases hmv : dictMem s.msg_video it.vid = true
          · rw [if_pos ⟨rfl, hmv⟩] at h
            simp only [Except.ok.injEq, Prod.mk.injEq] at h
            obtain ⟨rfl, rfl, rfl⟩ := h
            exact Or.inl ⟨rfl, rfl, rfl, rfl, rfl, rfl, Or.inr rfl⟩
          · have hc2 : ¬ (Kind.video = Kind.video ∧ dictMem s.msg_video it.vid = true) :=
              fun hc => hmv hc.2
            rw [if_neg hc2] at h
            simp only [Except.ok.injEq, Prod.mk.injEq] at h
            obtain ⟨rfl, rfl, rfl⟩ := h
            exact Or.inr ⟨Kind.video, rfl, rfl, hvid,
              Bool.not_eq_true _ ▸ hnot, rfl, rfl, rfl,
              Or.inr ⟨rfl, hpl, Bool.not_eq_true _ ▸ hmv, rfl, rfl⟩⟩

/-- Inversion of one unfolding of the phase-1 loop. -/
theorem step1_cons (env : Env) (it : Entry) (rest : List Entry) (s : StateDoc)
    (c : Int) {s'' : StateDoc} {c'' : Int} {effs : List Effect}
    (h : step1 env (it :: rest) s c = .ok (s'', c'', effs)) :
    ∃ s' c' e1 e2, step1Item env s c it = .ok (s', c', e1) ∧
      step1 env rest s' c' = .ok (s'', c'', e2) ∧ effs = e1 ++ e2 := by
  unfold step1 at h
  cases h1 : step1Item env s c it with
  | error e => rw [h1] at h; cases h
  | ok r =>
    obtain ⟨s', c', e1⟩ := r
    rw [h1] at h
    simp only at h
    cases h2 : step1 env rest s' c' with
    | error e => rw [h2] at h; cases h
    | ok r2 =>
      obtain ⟨s2, c2, e2⟩ := r2
      rw [h2] at h
      simp only [Except.ok.injEq, Prod.mk.injEq] at h
      obtain ⟨rfl, rfl, rfl⟩ := h
      exact ⟨s', c', e1, e2, rfl, h2, rfl⟩

theorem probeIsLive_ok {env : Env} {v : String} (h : probeIsLive env v = true) :
    ∃ i, yt_api_video_info env v = .ok i ∧ i.is_live_now = true := by
  unfold probeIsLive at h
  cases hyt : yt_api_video_info env v with
  | error e => rw [hyt] at h; cases h
  | ok i => rw [hyt] at h; exact ⟨i, rfl, h⟩

theorem probeOkNotLive_ok {env : Env} {v : String} (h : probeOkNotLive env v = true) :
    ∃ i, yt_api_video_info env v = .ok i ∧ i.is_live_now = false := by
  unfold probeOkNotLive at h
  cases hyt : yt_api_video_info env v with
  | error e => rw [hyt] at h; cases h
  | ok i => rw [hyt] at h; simp at h; exact ⟨i, rfl, h⟩

theorem probeIsLive_not_notLive {env : Env} {v : String}
    (h : probeIsLive env v = true) : probeOkNotLive env v = false := by
  obtain ⟨i, hyt, hl⟩ := probeIsLive_ok h
  simp [probeOkNotLive, hyt, hl]

theorem probeOkNotLive_not_live {env : Env} {v : String}
    (h : probeOkNotLive env v = true) : probeIsLive env v = false := by
  obtain ⟨i, hyt, hl⟩ := probeOkNotLive_ok h
  simp [probeIsLive, hyt, hl]

theorem step1Item_notified_mono {env : Env} {s : StateDoc} {c : Int} {it : Entry}
    {s' : StateDoc} {c' : Int} {effs : List Effect}
    (h : step1Item env s c it = .ok (s', c', effs)) (w : String)
    (hm : dictMem s.notified w = true) : dictMem s'.notified w = true := by
  rcases step1Item_spec env s c it h with
    ⟨_, _, _, _, _, _, hn | hn⟩ | ⟨kind, _, _, _, _, hn, _⟩ <;>
    rw [hn] <;> try exact hm
  all_goals rw [dictMem_insert]; simp [hm]

theorem step1Item_msglive_mono {env : Env} {s : StateDoc} {c : Int} {it : Entry}
    {s' : StateDoc} {c' : Int} {effs : List Effect}
    (h : step1Item env s c it = .ok (s', c', effs)) (w : String)
    (hm : dictMem s.msg_live w = true) : dictMem s'.msg_live w = true := by
  rcases step1Item_spec env s c it h with
    ⟨_, _, hl, _, _, _, _⟩ | ⟨kind, _, _, _, _, _, _, _,
      ⟨_, _, _, hl, _⟩ | ⟨_, _, _, _, hl⟩⟩ <;> rw [hl] <;> try exact hm
  rw [dictMem_insert]; simp [hm]

theorem step1Item_msgvideo_mono {env : Env} {s : StateDoc} {c : Int} {it : Entry}
    {s' : StateDoc} {c' : Int} {effs : List Effect}
    (h : step1Item env s c it = .ok (s', c', effs)) (w : String)
    (hm : dictMem s.msg_video w = true) : dictMem s'.msg_video w = true := by
  rcases step1Item_spec env s c it h with
    ⟨_, _, _, hv, _, _, _⟩ | ⟨kind, _, _, _, _, _, _, _,
      ⟨_, _, _, _, hv⟩ | ⟨_, _, _, hv, _⟩⟩ <;> rw [hv] <;> try exact hm
  rw [dictMem_insert]; simp [hm]

theorem step1Item_count_le {env : Env} {s : StateDoc} {c : Int} {it : Entry}
    {s' : StateDoc} {c' : Int} {effs : List Effect}
    (h : step1Item env s c it = .ok (s', c', effs)) (w : String) (k : Kind) :
    countSend effs w k ≤ 1 := by
  rcases step1Item_spec env s c it h with
    ⟨he, _⟩ | ⟨kind, he, _⟩ <;> rw [he]
  · exact Nat.zero_le 1
  · rw [countSend_single_send]
    by_cases hc : it.vid = w ∧ kind = k <;> simp [hc]

theorem step1Item_skip_notified {env : Env} {s : StateDoc} {c : Int} {it : Entry}
    {s' : StateDoc} {c' : Int} {effs : List Effect}
    (h : step1Item env s c it = .ok (s', c', effs)) (w : String) (k : Kind)
    (hm : dictMem s.notified w = true) : countSend effs w k = 0 := by
  rcases step1Item_spec env s c it h with
    ⟨he, _⟩ | ⟨kind, he, _, _, hn, _⟩ <;> rw [he]
  · rfl
  · rw [countSend_single_send]
    have hne : ¬ (it.vid = w ∧ kind = k) := by
      rintro ⟨rfl, _⟩
      rw [hm] at hn
      cases hn
    simp [hne]

theorem step1Item_send_establishes {env : Env} {s : StateDoc} {c : Int}
    {it : Entry} {s' : StateDoc} {c' : Int} {effs : List Effect}
    (h : step1Item env s c it = .ok (s', c', effs)) (w : String) (k : Kind)
    (hc : 1 ≤ countSend effs w k) :
    it.vid = w ∧ dictMem s'.notified w = true ∧
      dictMem s.notified w = false ∧
      (k = Kind.live → probeIsLive env w = true ∧ dictMem s'.msg_live w = true) ∧
      (k = Kind.video → probeOkNotLive env w = true ∧
        dictMem s'.msg_video w = true ∧ dictMem s.msg_video w = false) := by
  rcases step1Item_spec env s c it h with
    ⟨he, _⟩ | ⟨kind, he, _, _, hn, hni, _, _, hbr⟩
  · rw [he] at hc; cases hc
  · rw [he, countSend_single_send] at hc
    by_cases hcc : it.vid = w ∧ kind = k
    · obtain ⟨rfl, rfl⟩ := hcc
      have hmem : dictMem s'.notified it.vid = true := by
        rw [hni, dictMem_insert]; simp
      rcases hbr with ⟨hkl, hpl, hml, hl, hv⟩ | ⟨hkv, hpl, hmv, hv, hl⟩
      · subst hkl
        refine ⟨rfl, hmem, hn, fun _ => ⟨hpl, ?_⟩, fun hk => ?_⟩
        · rw [hl, dictMem_insert]; simp
        · cases hk
      · subst hkv
        refine ⟨rfl, hmem, hn, fun hk => ?_, fun _ => ⟨hpl, ?_, hmv⟩⟩
        · cases hk
        · rw [hv, dictMem_insert]; simp
    · rw [if_neg hcc] at hc; cases hc

theorem step1Item_video_skip {env : Env} {s : StateDoc} {c : Int} {it : Entry}
    {s' : StateDoc} {c' : Int} {effs : List Effect}
    (h : step1Item env s c it = .ok (s', c', effs)) (w : String)
    (hm : dictMem s.msg_video w = true) :
    countSend effs w Kind.video = 0 ∧ dictMem s'.msg_video w = true := by
  refine ⟨?_, step1Item_msgvideo_mono h w hm⟩
  cases hc : countSend effs w Kind.video with
  | zero => rfl
  | succ n =>
    have := step1Item_send_establishes h w Kind.video (by omega)
    obtain ⟨_, _, _, _, hv⟩ := this
    obtain ⟨_, _, hmv⟩ := hv rfl
    rw [hm] at hmv
    cases hmv

theorem step1Item_live_skip {env : Env} {s : StateDoc} {c : Int} {it : Entry}
    {s' : StateDoc} {c' : Int} {effs : List Effect}
    (h : step1Item env s c it = .ok (s', c', effs)) (w : String)
    (hm : dictMem s.msg_live w = true) :
    countSend effs w Kind.live = 0 ∧ dictMem s'.msg_live w = true := by
  refine ⟨?_, step1Item_msglive_mono h w hm⟩
  rcases step1Item_spec env s c it h with
    ⟨he, _⟩ | ⟨kind, he, _, _, hn, hni, _, _, hbr⟩
  · rw [he]; rfl
  · rw [he, countSend_single_send]
    have hne : ¬ (it.vid = w ∧ kind = Kind.live) := by
      rintro ⟨rfl, rfl⟩
      rcases hbr with ⟨_, _, hml, _, _⟩ | ⟨hkv, _⟩
      · rw [hm] at hml; cases hml
      · cases hkv
    simp [hne]

theorem step1Item_video_intro {env : Env} {s : StateDoc} {c : Int} {it : Entry}
    {s' : StateDoc} {c' : Int} {effs : List Effect}
    (h : step1Item env s c it = .ok (s', c', effs)) (w : String)
    (hm : dictMem s'.msg_video w = true) :
    dictMem s.msg_video w = true ∨ 1 ≤ countSend effs w Kind.video := by
  rcases step1Item_spec env s c it h with
    ⟨_, _, _, hv, _⟩ | ⟨kind, he, _, _, _, _, _, _, hbr⟩
  · rw [hv] at hm; exact Or.inl hm
  · rcases hbr with ⟨hkl, _, _, _, hv⟩ | ⟨hkv, _, _, hv, _⟩
    · rw [hv] at hm; exact Or.inl hm
    · subst hkv
      rw [hv, dictMem_insert] at hm
      by_cases hw : it.vid = w
      · subst hw
        rw [he, countSend_single_send]
        exact Or.inr (by simp)
      · simp [hw] at hm
        exact Or.inl hm

theorem step1Item_pinned {env : Env} {s : StateDoc} {c : Int} {it : Entry}
    {s' : StateDoc} {c' : Int} {effs : List Effect}
    (h : step1Item env s c it = .ok (s', c', effs)) :
    s'.pinned_message_id = s.pinned_message_id ∧
      s'.last_seen_epoch = s.last_seen_epoch := by
  rcases step1Item_spec env s c it h with
    ⟨_, _, _, _, hp, hl, _⟩ | ⟨kind, _, _, _, _, _, hp, hl, _⟩ <;> exact ⟨hp, hl⟩

theorem step1Item_other {env : Env} {s : StateDoc} {c : Int} {it : Entry}
    {s' : StateDoc} {c' : Int} {effs : List Effect}
    (h : step1Item env s c it = .ok (s', c', effs)) (w : String)
    (hw : it.vid ≠ w) :
    dictFind s'.notified w = dictFind s.notified w ∧
      dictFind s'.msg_live w = dictFind s.msg_live w ∧
      dictFind s'.msg_video w = dictFind s.msg_video w := by
  have hins : ∀ (m : List (String × Int)) (v : Int),
      dictFind (dictInsert m it.vid v) w = dictFind m w := by
    intro m v
    rw [dictFind_insert, if_neg hw]
  rcases step1Item_spec env s c it h with
    ⟨_, _, hl, hv, _, _, hn | hn⟩ | ⟨kind, _, _, _, _, hn, _, _,
      ⟨_, _, _, hl, hv⟩ | ⟨_, _, _, hv, hl⟩⟩ <;>
    rw [hn, hl, hv] <;> simp [hins]

theorem step1Item_effects_send {env : Env} {s : StateDoc} {c : Int} {it : Entry}
    {s' : StateDoc} {c' : Int} {effs : List Effect}
    (h : step1Item env s c it = .ok (s', c', effs)) :
    ∀ e ∈ effs, ∃ v k m, e = Effect.send v k m := by
  rcases step1Item_spec env s c it h with ⟨he, _⟩ | ⟨kind, he, _⟩ <;> rw [he]
  · intro e he2; cases he2
  · intro e he2
    rcases List.mem_singleton.mp he2 with rfl
    exact ⟨it.vid, kind, c, rfl⟩

theorem step1_nil (env : Env) (s : StateDoc) (c : Int) {s' : StateDoc}
    {c' : Int} {effs : List Effect}
    (h : step1 env [] s c = .ok (s', c', effs)) :
    s' = s ∧ c' = c ∧ effs = [] := by
  unfold step1 at h
  simp only [Except.ok.injEq, Prod.mk.injEq] at h
  exact ⟨h.1.symm, h.2.1.symm, h.2.2.symm⟩

theorem step1_notified_mono (env : Env) (L : List Entry) :
    ∀ {s : StateDoc} {c : Int} {s' : StateDoc} {c' : Int} {effs : List Effect},
      step1 env L s c = .ok (s', c', effs) → ∀ w, dictMem s.notified w = true →
        dictMem s'.notified w = true := by
  induction L with
  | nil =>
    intro s c s' c' effs h w hm
    obtain ⟨rfl, -, -⟩ := step1_nil env s c h
    exact hm
  | cons it rest ih =>
    intro s c s' c' effs h w hm
    obtain ⟨s1, c1, e1, e2, h1, h2, rfl⟩ := step1_cons env it rest s c h
    exact ih h2 w (step1Item_notified_mono h1 w hm)

theorem step1_msglive_mono (env : Env) (L : List Entry) :
    ∀ {s : StateDoc} {c : Int} {s' : StateDoc} {c' : Int} {effs : List Effect},
      step1 env L s c = .ok (s', c', effs) → ∀ w, dictMem s.msg_live w = true →
        dictMem s'.msg_live w = true := by
  induction L with
  | nil =>
    intro s c s' c' effs h w hm
    obtain ⟨rfl, -, -⟩ := step1_nil env s c h
    exact hm
  | cons it rest ih =>
    intro s c s' c' effs h w hm
    obtain ⟨s1, c1, e1, e2, h1, h2, rfl⟩ := step1_cons env it rest s c h
    exact ih h2 w (step1Item_msglive_mono h1 w hm)

theorem step1_msgvideo_mono (env : Env) (L : List Entry) :
    ∀ {s : StateDoc} {c : Int} {s' : StateDoc} {c' : Int} {effs : List Effect},
      step1 env L s c = .ok (s', c', effs) → ∀ w, dictMem s.msg_video w = true →
        dictMem s'.msg_video w = true := by
  induction L with
  | nil =>
    intro s c s' c' effs h w hm
    obtain ⟨rfl, -, -⟩ := step1_nil env s c h
    exact hm
  | cons it rest ih =>
    intro s c s' c' effs h w hm
    obtain ⟨s1, c1, e1, e2, h1, h2, rfl⟩ := step1_cons env it rest s c h
    exact ih h2 w (step1Item_msgvideo_mono h1 w hm)

theorem step1_skip_notified (env : Env) (L : List Entry) :
    ∀ {s : StateDoc} {c : Int} {s' : StateDoc} {c' : Int} {effs : List Effect},
      step1 env L s c = .ok (s', c', effs) → ∀ w k,
        dictMem s.notified w = true → countSend effs w k = 0 := by
  induction L with
  | nil =>
    intro s c s' c' effs h w k hm
    obtain ⟨-, -, rfl⟩ := step1_nil env s c h
    rfl
  | cons it rest ih =>
    intro s c s' c' effs h w k hm
    obtain ⟨s1, c1, e1, e2, h1, h2, rfl⟩ := step1_cons env it rest s c h
    rw [countSend_append, step1Item_skip_notified h1 w k hm,
      ih h2 w k (step1Item_notified_mono h1 w hm)]

theorem step1_count_le (env : Env) (L : List Entry) :
    ∀ {s : StateDoc} {c : Int} {s' : StateDoc} {c' : Int} {effs : List Effect},
      step1 env L s c = .ok (s', c', effs) → ∀ w k,
        countSend effs w k ≤ 1 := by
  induction L with
  | nil =>
    intro s c s' c' effs h w k
    obtain ⟨-, -, rfl⟩ := step1_nil env s c h
    exact Nat.zero_le 1
  | cons it rest ih =>
    intro s c s' c' effs h w k
    obtain ⟨s1, c1, e1, e2, h1, h2, rfl⟩ := step1_cons env it rest s c h
    rw [countSend_append]
    cases hc : countSend e1 w k with
    | zero => simpa using ih h2 w k
    | succ n =>
      have h1c := step1Item_count_le h1 w k
      rw [hc] at h1c
      have hn0 : n = 0 := by omega
      subst hn0
      have hest := step1Item_send_establishes h1 w k (by rw [hc])
      have := step1_skip_notified env rest h2 w k hest.2.1
      omega

theorem step1_send_establishes (env : Env) (L : List Entry) :
    ∀ {s : StateDoc} {c : Int} {s' : StateDoc} {c' : Int} {effs : List Effect},
      step1 env L s c = .ok (s', c', effs) → ∀ w k,
        1 ≤ countSend effs w k →
        dictMem s'.notified w = true ∧
        (k = Kind.live → probeIsLive env w = true ∧
          dictMem s'.msg_live w = true) ∧
        (k = Kind.video → probeOkNotLive env w = true ∧
          dictMem s'.msg_video w = true) := by
  induction L with
  | nil =>
    intro s c s' c' effs h w k hc
    obtain ⟨-, -, rfl⟩ := step1_nil env s c h
    cases hc
  | cons it rest ih =>
    intro s c s' c' effs h w k hc
    obtain ⟨s1, c1, e1, e2, h1, h2, rfl⟩ := step1_cons env it rest s c h
    rw [countSend_append] at hc
    cases hc1 : countSend e1 w k with
    | zero =>
      rw [hc1] at hc
      exact ih h2 w k (by omega)
    | succ n =>
      have hest := step1Item_send_establishes h1 w k (by omega)
      refine ⟨step1_notified_mono env rest h2 w hest.2.1, fun hk => ?_, fun hk => ?_⟩
      · obtain ⟨hpl, hml⟩ := hest.2.2.2.1 hk
        exact ⟨hpl, step1_msglive_mono env rest h2 w hml⟩
      · obtain ⟨hpl, hmv, -⟩ := hest.2.2.2.2 hk
        exact ⟨hpl, step1_msgvideo_mono env rest h2 w hmv⟩

theorem step1_video_skip (env : Env) (L : List Entry) :
    ∀ {s : StateDoc} {c : Int} {s' : StateDoc} {c' : Int} {effs : List Effect},
      step1 env L s c = .ok (s', c', effs) → ∀ w,
        dictMem s.msg_video w = true →
        countSend effs w Kind.video = 0 ∧ dictMem s'.msg_video w = true := by
  induction L with
  | nil =>
    intro s c s' c' effs h w hm
    obtain ⟨rfl, -, rfl⟩ := step1_nil env s c h
    exact ⟨rfl, hm⟩
  | cons it rest ih =>
    intro s c s' c' effs h w hm
    obtain ⟨s1, c1, e1, e2, h1, h2, rfl⟩ := step1_cons env it rest s c h
    obtain ⟨hz1, hm1⟩ := step1Item_video_skip h1 w hm
    obtain ⟨hz2, hm2⟩ := ih h2 w hm1
    rw [countSend_append, hz1, hz2]
    exact ⟨rfl, hm2⟩

theorem step1_live_skip (env : Env) (L : List Entry) :
    ∀ {s : StateDoc} {c : Int} {s' : StateDoc} {c' : Int} {effs : List Effect},
      step1 env L s c = .ok (s', c', effs) → ∀ w,
        dictMem s.msg_live w = true → probeIsLive env w = true →
        countSend effs w Kind.live = 0 ∧ dictMem s'.msg_live w = true := by
  induction L with
  | nil =>
    intro s c s' c' effs h w hm hpl
    obtain ⟨rfl, -, rfl⟩ := step1_nil env s c h
    exact ⟨rfl, hm⟩
  | cons it rest ih =>
    intro s c s' c' effs h w hm hpl
    obtain ⟨s1, c1, e1, e2, h1, h2, rfl⟩ := step1_cons env it rest s c h
    obtain ⟨hz1, hm1⟩ := step1Item_live_skip h1 w hm
    obtain ⟨hz2, hm2⟩ := ih h2 w hm1 hpl
    rw [countSend_append, hz1, hz2]
    exact ⟨rfl, hm2⟩

theorem step1_video_intro (env : Env) (L : List Entry) :
    ∀ {s : StateDoc} {c : Int} {s' : StateDoc} {c' : Int} {effs : List Effect},
      step1 env L s c = .ok (s', c', effs) → ∀ w,
        dictMem s'.msg_video w = true →
        dictMem s.msg_video w = true ∨ 1 ≤ countSend effs w Kind.video := by
  induction L with
  | nil =>
    intro s c s' c' effs h w hm
    obtain ⟨rfl, -, -⟩ := step1_nil env s c h
    exact Or.inl hm
  | cons it rest ih =>
    intro s c s' c' effs h w hm
    obtain ⟨s1, c1, e1, e2, h1, h2, rfl⟩ := step1_cons env it rest s c h
    rcases ih h2 w hm with hm1 | hc2
    · rcases step1Item_video_intro h1 w hm1 with hm0 | hc1
      · exact Or.inl hm0
      · refine Or.inr ?_
        rw [countSend_append]
        omega
    · refine Or.inr ?_
      rw [countSend_append]
      omega

theorem step1_pinned (env : Env) (L : List Entry) :
    ∀ {s : StateDoc} {c : Int} {s' : StateDoc} {c' : Int} {effs : List Effect},
      step1 env L s c = .ok (s', c', effs) →
        s'.pinned_message_id = s.pinned_message_id ∧
        s'.last_seen_epoch = s.last_seen_epoch := by
  induction L with
  | nil =>
    intro s c s' c' effs h
    obtain ⟨rfl, -, -⟩ := step1_nil env s c h
    exact ⟨rfl, rfl⟩
  | cons it rest ih =>
    intro s c s' c' effs h
    obtain ⟨s1, c1, e1, e2, h1, h2, rfl⟩ := step1_cons env it rest s c h
    obtain ⟨hp1, hl1⟩ := step1Item_pinned h1
    obtain ⟨hp2, hl2⟩ := ih h2
    exact ⟨hp2.trans hp1, hl2.trans hl1⟩

theorem step1_effects_send (env : Env) (L : List Entry) :
    ∀ {s : StateDoc} {c : Int} {s' : StateDoc} {c' : Int} {effs : List Effect},
      step1 env L s c = .ok (s', c', effs) →
        ∀ e ∈ effs, ∃ v k m, e = Effect.send v k m := by
  induction L with
  | nil =>
    intro s c s' c' effs h e he
    obtain ⟨-, -, rfl⟩ := step1_nil env s c h
    cases he
  | cons it rest ih =>
    intro s c s' c' effs h e he
    obtain ⟨s1, c1, e1, e2, h1, h2, rfl⟩ := step1_cons env it rest s c h
    rcases List.mem_append.mp he with h3 | h3
    · exact step1Item_effects_send h1 e h3
    · exact ih h2 e h3

theorem step1Item_pos {env : Env} {s : StateDoc} {c : Int} {it : Entry}
    (hw : it.vid ≠ "") (hn : dictMem s.notified it.vid = false)
    (hml : dictMem s.msg_live it.vid = false)
    (hpl : probeIsLive env it.vid = true) :
    step1Item env s c it = .ok
      ({ s with
          notified := dictInsert s.notified it.vid env.now
          last_kind := dictInsert s.last_kind it.vid Kind.live
          msg_live := dictInsert s.msg_live it.vid c },
       c + 1, [Effect.send it.vid Kind.live c]) := by
  obtain ⟨i, hyt, hl⟩ := probeIsLive_ok hpl
  unfold step1Item
  rw [if_neg hw, if_neg (by simp [hn]), hyt]
  simp [hl, hml]

theorem step1_pos (env : Env) (L : List Entry) :
    ∀ {s : StateDoc} {c : Int} {s' : StateDoc} {c' : Int} {effs : List Effect},
      step1 env L s c = .ok (s', c', effs) → ∀ w,
        (∃ it ∈ L, it.vid = w) → w ≠ "" →
        dictMem s.notified w = false → dictMem s.msg_live w = false →
        probeIsLive env w = true →
        countSend effs w Kind.live = 1 := by
  induction L with
  | nil =>
    intro s c s' c' effs h w hex
    obtain ⟨it, hmem, -⟩ := hex
    cases hmem
  | cons it rest ih =>
    intro s c s' c' effs h w hex hw hn hml hpl
    obtain ⟨s1, c1, e1, e2, h1, h2, rfl⟩ := step1_cons env it rest s c h
    by_cases hv : it.vid = w
    · subst hv
      rw [step1Item_pos hw hn hml hpl] at h1
      simp only [Except.ok.injEq, Prod.mk.injEq] at h1
      obtain ⟨rfl, rfl, rfl⟩ := h1
      have hn1 : dictMem ({ s with
          notified := dictInsert s.notified it.vid env.now
          last_kind := dictInsert s.last_kind it.vid Kind.live
          msg_live := dictInsert s.msg_live it.vid c } : StateDoc).notified
          it.vid = true := by
        show dictMem (dictInsert s.notified it.vid env.now) it.vid = true
        rw [dictMem_insert]; simp
      rw [countSend_append, step1_skip_notified env rest h2 it.vid Kind.live hn1,
        countSend_single_send]
      simp
    · obtain ⟨it2, hmem2, hv2⟩ := hex
      rcases List.mem_cons.mp hmem2 with rfl | hmem3
      · exact absurd hv2 hv
      · obtain ⟨hfn, hfl, hfv⟩ := step1Item_other h1 w hv
        have hn1 : dictMem s1.notified w = false := by
          unfold dictMem; rw [hfn]; exact hn
        have hml1 : dictMem s1.msg_live w = false := by
          unfold dictMem; rw [hfl]; exact hml
        have hc1 : countSend e1 w Kind.live = 0 := by
          rcases step1Item_spec env s c it h1 with ⟨he, -⟩ | ⟨kind, he, -⟩ <;>
            rw [he]
          · rfl
          · rw [countSend_single_send, if_neg (fun hc => hv hc.1)]
        rw [countSend_append, hc1,
          ih h2 w ⟨it2, hmem3, hv2⟩ hw hn1 hml1 hpl]

/-! ## Phase-2 (live→video conversion) loop lemmas -/

theorem countSend_no_send {l : List Effect}
    (h : ∀ e ∈ l, ∀ v k m, e ≠ Effect.send v k m) (w : String) (k : Kind) :
    countSend l w k = 0 := by
  induction l with
  | nil => rfl
  | cons e rest ih =>
    have h0 : isSendOf w k e = false := by
      cases e with
      | send v kk m => exact absurd rfl (h _ (List.mem_cons_self _ _) v kk m)
      | editMsg m => rfl
      | deleteMsg m => rfl
      | pinMsg m => rfl
      | unpinMsg m => rfl
    have : countSend rest w k = 0 :=
      ih (fun e he => h e (List.mem_cons_of_mem _ he))
    simp [countSend, List.countP_cons, h0] at this ⊢
    exact this

theorem step2Item_live {cfg : Config} {env : Env} {s : StateDoc} {c : Int}
    {p : String × Int} (h : probeIsLive env p.1 = true) :
    step2Item cfg env s c p = (s, c, []) := by
  obtain ⟨i, hyt, hl⟩ := probeIsLive_ok h
  unfold step2Item
  dsimp only
  rw [hyt]
  simp [hl]

/-- Outcome characterization of one `step2Item`: the effects are an optional
video post of the pair's own id followed by unpin/delete attempts, and all
state changes are confined to the pair's own key. -/
theorem step2Item_spec (cfg : Config) (env : Env) (s : StateDoc) (c : Int)
    (p : String × Int) {s' : StateDoc} {c' : Int} {effs : List Effect}
    (h : step2Item cfg env s c p = (s', c', effs)) :
    ∃ sendE tailE, effs = sendE ++ tailE ∧
      (∀ e ∈ tailE, (∃ m, e = Effect.unpinMsg m) ∨ (∃ m, e = Effect.deleteMsg m)) ∧
      ((sendE = [] ∧ s'.msg_video = s.msg_video ∧ s'.notified = s.notified ∧
        c' = c) ∨
       (sendE = [Effect.send p.1 Kind.video c] ∧
        probeOkNotLive env p.1 = true ∧
        dictMem s.msg_video p.1 = false ∧
        s'.msg_video = dictInsert s.msg_video p.1 c ∧
        s'.notified = dictSetdefault s.notified p.1 env.now ∧ c' = c + 1)) ∧
      (s'.msg_live = s.msg_live ∨ s'.msg_live = dictErase s.msg_live p.1) ∧
      s'.pinned_message_id = s.pinned_message_id ∧
      s'.last_seen_epoch = s.last_seen_epoch := by
  unfold step2Item at h
  dsimp only at h
  cases hyt : yt_api_video_info env p.1 with
  | error e =>
    rw [hyt] at h
    simp only [Prod.mk.injEq] at h
    obtain ⟨rfl, rfl, rfl⟩ := h
    exact ⟨[], [], rfl, fun e he => absurd he (List.not_mem_nil e),
      Or.inl ⟨rfl, rfl, rfl, rfl⟩, Or.inl rfl, rfl, rfl⟩
  | ok info =>
    rw [hyt] at h
    simp only at h
    cases hlive : info.is_live_now with
    | true =>
      rw [hlive] at h
      simp only [if_true] at h
      simp only [Prod.mk.injEq] at h
      obtain ⟨rfl, rfl, rfl⟩ := h
      exact ⟨[], [], rfl, fun e he => absurd he (List.not_mem_nil e),
        Or.inl ⟨rfl, rfl, rfl, rfl⟩, Or.inl rfl, rfl, rfl⟩
    | false =>
      rw [hlive] at h
      simp only [Bool.false_eq_true, if_false] at h
      have hnl : probeOkNotLive env p.1 = true := by
        simp [probeOkNotLive, hyt, hlive]
      by_cases hmv : dictMem s.msg_video p.1 = true
      · -- no send; possibly delete
        rw [hmv] at h
        simp only [Bool.not_true, Bool.false_eq_true, if_false] at h
        by_cases hdel : cfg.delete_live_when_finalized = true
        · rw [hdel] at h
          simp only [Bool.true_and, hmv, if_true] at h
          by_cases hpin : s.pinned_message_id = some p.2
          · rw [if_pos hpin] at h
            simp only [Prod.mk.injEq] at h
            obtain ⟨rfl, rfl, rfl⟩ := h
            refine ⟨[], [Effect.unpinMsg p.2, Effect.deleteMsg p.2], rfl,
              ?_, Or.inl ⟨rfl, rfl, rfl, rfl⟩, Or.inr rfl, rfl, rfl⟩
            intro e he
            fin_cases he
            · exact Or.inl ⟨p.2, rfl⟩
            · exact Or.inr ⟨p.2, rfl⟩
          · rw [if_neg hpin] at h
            simp only [Prod.mk.injEq] at h
            obtain ⟨rfl, rfl, rfl⟩ := h
            refine ⟨[], [Effect.deleteMsg p.2], rfl, ?_,
              Or.inl ⟨rfl, rfl, rfl, rfl⟩, Or.inr rfl, rfl, rfl⟩
            intro e he
            fin_cases he
            exact Or.inr ⟨p.2, rfl⟩
        · have hdelf : cfg.delete_live_when_finalized = false :=
            Bool.not_eq_true _ ▸ hdel
          rw [hdelf] at h
          simp only [Bool.false_and, Bool.false_eq_true, if_false] at h
          simp only [Prod.mk.injEq] at h
          obtain ⟨rfl, rfl, rfl⟩ := h
          exact ⟨[], [], rfl, fun e he => absurd he (List.not_mem_nil e),
            Or.inl ⟨rfl, rfl, rfl, rfl⟩, Or.inl rfl, rfl, rfl⟩
      · have hmvf : dictMem s.msg_video p.1 = false := Bool.not_eq_true _ ▸ hmv
        rw [hmvf] at h
        simp only [Bool.not_false, if_true] at h
        cases hfind : env.entries.find? (fun x => decide (x.vid = p.1)) with
        | none =>
          rw [hfind] at h
          simp only at h
          -- delete branch checks msg_video of unchanged state
          rw [hmvf] at h
          simp only [Bool.and_false, Bool.false_eq_true, if_false] at h
          simp only [Prod.mk.injEq] at h
          obtain ⟨rfl, rfl, rfl⟩ := h
          exact ⟨[], [], rfl, fun e he => absurd he (List.not_mem_nil e),
            Or.inl ⟨rfl, rfl, rfl, rfl⟩, Or.inl rfl, rfl, rfl⟩
        | some item =>
          rw [hfind] at h
          simp only at h
          have hmv1 : dictMem (dictInsert s.msg_video p.1 c) p.1 = true := by
            rw [dictMem_insert]; simp
          rw [hmv1] at h
          by_cases hdel : cfg.delete_live_when_finalized = true
          · rw [hdel] at h
            simp only [Bool.true_and, if_true] at h
            by_cases hpin : s.pinned_message_id = some p.2
            · rw [if_pos hpin] at h
              simp only [Prod.mk.injEq] at h
              obtain ⟨rfl, rfl, rfl⟩ := h
              refine ⟨[Effect.send p.1 Kind.video c],
                [Effect.unpinMsg p.2, Effect.deleteMsg p.2], rfl, ?_,
                Or.inr ⟨rfl, hnl, hmvf, rfl, rfl, rfl⟩, Or.inr rfl, rfl, rfl⟩
              intro e he
              fin_cases he
              · exact Or.inl ⟨p.2, rfl⟩
              · exact Or.inr ⟨p.2, rfl⟩
            · rw [if_neg hpin] at h
              simp only [Prod.mk.injEq] at h
              obtain ⟨rfl, rfl, rfl⟩ := h
              refine ⟨[Effect.send p.1 Kind.video c], [Effect.deleteMsg p.2],
                rfl, ?_, Or.inr ⟨rfl, hnl, hmvf, rfl, rfl, rfl⟩,
                Or.inr rfl, rfl, rfl⟩
              intro e he
              fin_cases he
              exact Or.inr ⟨p.2, rfl⟩
          · have hdelf : cfg.delete_live_when_finalized = false :=
              Bool.not_eq_true _ ▸ hdel
            rw [hdelf] at h
            simp only [Bool.false_and, Bool.false_eq_true, if_false] at h
            simp only [Prod.mk.injEq] at h
            obtain ⟨rfl, rfl, rfl⟩ := h
            refine ⟨[Effect.send p.1 Kind.video c], [], ?_,
              fun e he => absurd he (List.not_mem_nil e),
              Or.inr ⟨rfl, hnl, hmvf, rfl, rfl, rfl⟩, Or.inl rfl, rfl, rfl⟩
            simp

theorem countSend_tail_zero {l : List Effect}
    (h : ∀ e ∈ l, (∃ m, e = Effect.unpinMsg m) ∨ (∃ m, e = Effect.deleteMsg m))
    (w : String) (k : Kind) : countSend l w k = 0 := by
  refine countSend_no_send ?_ w k
  intro e he v kk m
  rcases h e he with ⟨m2, rfl⟩ | ⟨m2, rfl⟩ <;> simp

theorem step2Item_live_count {cfg : Config} {env : Env} {s : StateDoc}
    {c : Int} {p : String × Int} {s' : StateDoc} {c' : Int} {effs : List Effect}
    (h : step2Item cfg env s c p = (s', c', effs)) (w : String) :
    countSend effs w Kind.live = 0 := by
  obtain ⟨sendE, tailE, rfl, htail, hsend, -⟩ := step2Item_spec cfg env s c p h
  rw [countSend_append, countSend_tail_zero htail]
  rcases hsend with ⟨rfl, -⟩ | ⟨rfl, -⟩
  · rfl
  · rw [countSend_single_send]
    simp

theorem step2Item_video_skip {cfg : Config} {env : Env} {s : StateDoc}
    {c : Int} {p : String × Int} {s' : StateDoc} {c' : Int} {effs : List Effect}
    (h : step2Item cfg env s c p = (s', c', effs)) (w : String)
    (hm : dictMem s.msg_video w = true) :
    dictMem s'.msg_video w = true ∧ countSend effs w Kind.video = 0 := by
  obtain ⟨sendE, tailE, rfl, htail, hsend, -⟩ := step2Item_spec cfg env s c p h
  rw [countSend_append, countSend_tail_zero htail]
  rcases hsend with ⟨rfl, hv, -⟩ | ⟨rfl, -, hmf, hv, -⟩
  · rw [hv]; exact ⟨hm, rfl⟩
  · have hne : p.1 ≠ w := fun hc => by rw [hc, hm] at hmf; cases hmf
    constructor
    · rw [hv, dictMem_insert]; simp [hm]
    · rw [countSend_single_send, if_neg (fun hc => hne hc.1)]

theorem step2Item_video_send {cfg : Config} {env : Env} {s : StateDoc}
    {c : Int} {p : String × Int} {s' : StateDoc} {c' : Int} {effs : List Effect}
    (h : step2Item cfg env s c p = (s', c', effs)) (w : String)
    (hc : 1 ≤ countSend effs w Kind.video) :
    p.1 = w ∧ probeOkNotLive env w = true ∧ dictMem s'.msg_video w = true ∧
      dictMem s.msg_video w = false := by
  obtain ⟨sendE, tailE, rfl, htail, hsend, -⟩ := step2Item_spec cfg env s c p h
  rw [countSend_append, countSend_tail_zero htail] at hc
  rcases hsend with ⟨rfl, -⟩ | ⟨rfl, hnl, hmf, hv, -⟩
  · cases hc
  · rw [countSend_single_send] at hc
    by_cases hcc : p.1 = w ∧ Kind.video = Kind.video
    · obtain ⟨rfl, -⟩ := hcc
      refine ⟨rfl, hnl, ?_, hmf⟩
      rw [hv, dictMem_insert]
      simp
    · rw [if_neg hcc] at hc
      cases hc

theorem step2Item_count_le {cfg : Config} {env : Env} {s : StateDoc}
    {c : Int} {p : String × Int} {s' : StateDoc} {c' : Int} {effs : List Effect}
    (h : step2Item cfg env s c p = (s', c', effs)) (w : String) (k : Kind) :
    countSend effs w k ≤ 1 := by
  obtain ⟨sendE, tailE, rfl, htail, hsend, -⟩ := step2Item_spec cfg env s c p h
  rw [countSend_append, countSend_tail_zero htail]
  rcases hsend with ⟨rfl, -⟩ | ⟨rfl, -⟩
  · exact Nat.zero_le 1
  · rw [countSend_single_send]
    by_cases hcc : p.1 = w ∧ Kind.video = k <;> simp [hcc]

theorem step2Item_err {cfg : Config} {env : Env} {s : StateDoc} {c : Int}
    {p : String × Int} (h : yt_api_video_info env p.1 = .error ()) :
    step2Item cfg env s c p = (s, c, []) := by
  unfold step2Item
  dsimp only
  rw [h]

theorem step2Item_msglive_pres {cfg : Config} {env : Env} {s : StateDoc}
    {c : Int} {p : String × Int} {s' : StateDoc} {c' : Int} {effs : List Effect}
    (h : step2Item cfg env s c p = (s', c', effs)) (w : String)
    (hpl : probeOkNotLive env w = false) (hm : dictMem s.msg_live w = true) :
    dictMem s'.msg_live w = true := by
  by_cases hp : p.1 = w
  · have hnoop : step2Item cfg env s c p = (s, c, []) := by
      cases hyt : yt_api_video_info env p.1 with
      | error e => exact step2Item_err (by rw [hyt])
      | ok i =>
        have hl : i.is_live_now = true := by
          unfold probeOkNotLive at hpl
          rw [← hp, hyt] at hpl
          simpa using hpl
        exact step2Item_live (by simp [probeIsLive, hyt, hl])
    rw [hnoop] at h
    simp only [Prod.mk.injEq] at h
    obtain ⟨rfl, -, -⟩ := h
    exact hm
  · obtain ⟨sendE, tailE, rfl, htail, hsend, hlv, -⟩ :=
      step2Item_spec cfg env s c p h
    rcases hlv with hlv | hlv
    · rw [hlv]; exact hm
    · have hwp : ¬ w = p.1 := fun hc => hp hc.symm
      rw [hlv, dictMem_erase]
      simp [hm, hwp]

theorem step2Item_pinned {cfg : Config} {env : Env} {s : StateDoc}
    {c : Int} {p : String × Int} {s' : StateDoc} {c' : Int} {effs : List Effect}
    (h : step2Item cfg env s c p = (s', c', effs)) :
    s'.pinned_message_id = s.pinned_message_id ∧
      s'.last_seen_epoch = s.last_seen_epoch := by
  obtain ⟨-, -, -, -, -, -, hp, hl⟩ := step2Item_spec cfg env s c p h
  exact ⟨hp, hl⟩

theorem step2Item_effects_shape {cfg : Config} {env : Env} {s : StateDoc}
    {c : Int} {p : String × Int} {s' : StateDoc} {c' : Int} {effs : List Effect}
    (h : step2Item cfg env s c p = (s', c', effs)) :
    ∀ e ∈ effs, (∃ v m, e = Effect.send v Kind.video m) ∨
      (∃ m, e = Effect.unpinMsg m) ∨ (∃ m, e = Effect.deleteMsg m) := by
  obtain ⟨sendE, tailE, rfl, htail, hsend, -⟩ := step2Item_spec cfg env s c p h
  intro e he
  rcases List.mem_append.mp he with h1 | h1
  · rcases hsend with ⟨rfl, -⟩ | ⟨rfl, -⟩
    · cases h1
    · rcases List.mem_singleton.mp h1 with rfl
      exact Or.inl ⟨p.1, c, rfl⟩
  · exact Or.inr (htail e h1)

theorem step2Item_video_intro {cfg : Config} {env : Env} {s : StateDoc}
    {c : Int} {p : String × Int} {s' : StateDoc} {c' : Int} {effs : List Effect}
    (h : step2Item cfg env s c p = (s', c', effs)) (w : String)
    (hm : dictMem s'.msg_video w = true) :
    dictMem s.msg_video w = true ∨ 1 ≤ countSend effs w Kind.video := by
  obtain ⟨sendE, tailE, rfl, htail, hsend, -⟩ := step2Item_spec cfg env s c p h
  rcases hsend with ⟨rfl, hv, -⟩ | ⟨rfl, -, -, hv, -⟩
  · rw [hv] at hm; exact Or.inl hm
  · rw [hv, dictMem_insert] at hm
    by_cases hp : p.1 = w
    · refine Or.inr ?_
      rw [countSend_append, countSend_single_send, if_pos ⟨hp, rfl⟩]
      omega
    · simp [hp] at hm
      exact Or.inl hm

theorem step2Item_pos {cfg : Config} {env : Env} {s : StateDoc} {c : Int}
    {p : String × Int} (hnl : probeOkNotLive env p.1 = true)
    (hmv : dictMem s.msg_video p.1 = false)
    (hfind : ∃ it, env.entries.find? (fun x => decide (x.vid = p.1)) = some it) :
    1 ≤ countSend (step2Item cfg env s c p).2.2 p.1 Kind.video := by
  obtain ⟨i, hyt, hl⟩ := probeOkNotLive_ok hnl
  obtain ⟨item, hfind⟩ := hfind
  unfold step2Item
  dsimp only
  rw [hyt]
  simp only [hl, Bool.false_eq_true, if_false, hmv, Bool.not_false, if_true,
    hfind]
  have hmv1 : dictMem (dictInsert s.msg_video p.1 c) p.1 = true := by
    rw [dictMem_insert]; simp
  simp only [hmv1, Bool.and_true]
  by_cases hdel : cfg.delete_live_when_finalized = true
  · rw [if_pos hdel]
    by_cases hpin : s.pinned_message_id = some p.2
    · rw [if_pos hpin]
      rw [List.append_assoc, countSend_append, countSend_single_send]
      simp
    · rw [if_neg hpin]
      rw [countSend_append, countSend_single_send]
      simp
  · rw [if_neg hdel]
    rw [countSend_single_send]
    simp

theorem find_vid_of_mem (L : List Entry) (w : String)
    (h : ∃ it ∈ L, it.vid = w) :
    ∃ it2, L.find? (fun x => decide (x.vid = w)) = some it2 := by
  induction L with
  | nil => obtain ⟨it, hm, -⟩ := h; cases hm
  | cons a rest ih =>
    by_cases ha : a.vid = w
    · exact ⟨a, by simp [List.find?, ha]⟩
    · obtain ⟨it, hm, hv⟩ := h
      rcases List.mem_cons.mp hm with rfl | hm2
      · exact absurd hv ha
      · obtain ⟨it2, hfind⟩ := ih ⟨it, hm2, hv⟩
        exact ⟨it2, by simp [List.find?, ha, hfind]⟩

theorem step2_cons_eq (cfg : Config) (env : Env) (p : String × Int)
    (rest : List (String × Int)) (s : StateDoc) (c : Int) :
    step2 cfg env (p :: rest) s c =
      ((step2 cfg env rest (step2Item cfg env s c p).1
          (step2Item cfg env s c p).2.1).1,
       (step2 cfg env rest (step2Item cfg env s c p).1
          (step2Item cfg env s c p).2.1).2.1,
       (step2Item cfg env s c p).2.2 ++
         (step2 cfg env rest (step2Item cfg env s c p).1
           (step2Item cfg env s c p).2.1).2.2) := rfl

theorem step2_cons (cfg : Config) (env : Env) (p : String × Int)
    (rest : List (String × Int)) (s : StateDoc) (c : Int)
    {s' : StateDoc} {c' : Int} {effs : List Effect}
    (h : step2 cfg env (p :: rest) s c = (s', c', effs)) :
    ∃ s1 c1 e1 e2, step2Item cfg env s c p = (s1, c1, e1) ∧
      step2 cfg env rest s1 c1 = (s', c', e2) ∧ effs = e1 ++ e2 := by
  rw [step2_cons_eq] at h
  simp only [Prod.mk.injEq] at h
  obtain ⟨h1, h2, h3⟩ := h
  exact ⟨(step2Item cfg env s c p).1, (step2Item cfg env s c p).2.1,
    (step2Item cfg env s c p).2.2,
    (step2 cfg env rest (step2Item cfg env s c p).1
      (step2Item cfg env s c p).2.1).2.2, rfl,
    by rw [← h1, ← h2], h3.symm⟩

theorem step2_nil (cfg : Config) (env : Env) (s : StateDoc) (c : Int)
    {s' : StateDoc} {c' : Int} {effs : List Effect}
    (h : step2 cfg env [] s c = (s', c', effs)) :
    s' = s ∧ c' = c ∧ effs = [] := by
  unfold step2 at h
  simp only [Prod.mk.injEq] at h
  exact ⟨h.1.symm, h.2.1.symm, h.2.2.symm⟩

theorem step2_live_count (cfg : Config) (env : Env) (L : List (String × Int)) :
    ∀ {s : StateDoc} {c : Int} {s' : StateDoc} {c' : Int} {effs : List Effect},
      step2 cfg env L s c = (s', c', effs) → ∀ w,
        countSend effs w Kind.live = 0 := by
  induction L with
  | nil =>
    intro s c s' c' effs h w
    obtain ⟨-, -, rfl⟩ := step2_nil cfg env s c h
    rfl
  | cons p rest ih =>
    intro s c s' c' effs h w
    obtain ⟨s1, c1, e1, e2, h1, h2, rfl⟩ := step2_cons cfg env p rest s c h
    rw [countSend_append, step2Item_live_count h1 w, ih h2 w]

theorem step2_video_skip (cfg : Config) (env : Env) (L : List (String × Int)) :
    ∀ {s : StateDoc} {c : Int} {s' : StateDoc} {c' : Int} {effs : List Effect},
      step2 cfg env L s c = (s', c', effs) → ∀ w,
        dictMem s.msg_video w = true →
        dictMem s'.msg_video w = true ∧ countSend effs w Kind.video = 0 := by
  induction L with
  | nil =>
    intro s c s' c' effs h w hm
    obtain ⟨rfl, -, rfl⟩ := step2_nil cfg env s c h
    exact ⟨hm, rfl⟩
  | cons p rest ih =>
    intro s c s' c' effs h w hm
    obtain ⟨s1, c1, e1, e2, h1, h2, rfl⟩ := step2_cons cfg env p rest s c h
    obtain ⟨hm1, hz1⟩ := step2Item_video_skip h1 w hm
    obtain ⟨hm2, hz2⟩ := ih h2 w hm1
    rw [countSend_append, hz1, hz2]
    exact ⟨hm2, rfl⟩

theorem step2_video_send (cfg : Config) (env : Env) (L : List (String × Int)) :
    ∀ {s : StateDoc} {c : Int} {s' : StateDoc} {c' : Int} {effs : List Effect},
      step2 cfg env L s c = (s', c', effs) → ∀ w,
        1 ≤ countSend effs w Kind.video →
        probeOkNotLive env w = true ∧ dictMem s'.msg_video w = true := by
  induction L with
  | nil =>
    intro s c s' c' effs h w hc
    obtain ⟨-, -, rfl⟩ := step2_nil cfg env s c h
    cases hc
  | cons p rest ih =>
    intro s c s' c' effs h w hc
    obtain ⟨s1, c1, e1, e2, h1, h2, rfl⟩ := step2_cons cfg env p rest s c h
    rw [countSend_append] at hc
    cases hc1 : countSend e1 w Kind.video with
    | zero =>
      rw [hc1] at hc
      exact ih h2 w (by omega)
    | succ n =>
      obtain ⟨-, hnl, hm1, -⟩ := step2Item_video_send h1 w (by omega)
      exact ⟨hnl, (step2_video_skip cfg env rest h2 w hm1).1⟩

theorem step2_count_le (cfg : Config) (env : Env) (L : List (String × Int)) :
    ∀ {s : StateDoc} {c : Int} {s' : StateDoc} {c' : Int} {effs : List Effect},
      step2 cfg env L s c = (s', c', effs) → ∀ w,
        countSend effs w Kind.video ≤ 1 := by
  induction L with
  | nil =>
    intro s c s' c' effs h w
    obtain ⟨-, -, rfl⟩ := step2_nil cfg env s c h
    exact Nat.zero_le 1
  | cons p rest ih =>
    intro s c s' c' effs h w
    obtain ⟨s1, c1, e1, e2, h1, h2, rfl⟩ := step2_cons cfg env p rest s c h
    rw [countSend_append]
    cases hc1 : countSend e1 w Kind.video with
    | zero => simpa using ih h2 w
    | succ n =>
      have hle := step2Item_count_le h1 w Kind.video
      rw [hc1] at hle
      obtain ⟨-, -, hm1, -⟩ := step2Item_video_send h1 w (by omega)
      have := (step2_video_skip cfg env rest h2 w hm1).2
      omega

theorem step2_msglive_pres (cfg : Config) (env : Env) (L : List (String × Int)) :
    ∀ {s : StateDoc} {c : Int} {s' : StateDoc} {c' : Int} {effs : List Effect},
      step2 cfg env L s c = (s', c', effs) → ∀ w,
        probeOkNotLive env w = false → dictMem s.msg_live w = true →
        dictMem s'.msg_live w = true := by
  induction L with
  | nil =>
    intro s c s' c' effs h w hpl hm
    obtain ⟨rfl, -, -⟩ := step2_nil cfg env s c h
    exact hm
  | cons p rest ih =>
    intro s c s' c' effs h w hpl hm
    obtain ⟨s1, c1, e1, e2, h1, h2, rfl⟩ := step2_cons cfg env p rest s c h
    exact ih h2 w hpl (step2Item_msglive_pres h1 w hpl hm)

theorem step2_pinned (cfg : Config) (env : Env) (L : List (String × Int)) :
    ∀ {s : StateDoc} {c : Int} {s' : StateDoc} {c' : Int} {effs : List Effect},
      step2 cfg env L s c = (s', c', effs) →
        s'.pinned_message_id = s.pinned_message_id ∧
        s'.last_seen_epoch = s.last_seen_epoch := by
  induction L with
  | nil =>
    intro s c s' c' effs h
    obtain ⟨rfl, -, -⟩ := step2_nil cfg env s c h
    exact ⟨rfl, rfl⟩
  | cons p rest ih =>
    intro s c s' c' effs h
    obtain ⟨s1, c1, e1, e2, h1, h2, rfl⟩ := step2_cons cfg env p rest s c h
    obtain ⟨hp1, hl1⟩ := step2Item_pinned h1
    obtain ⟨hp2, hl2⟩ := ih h2
    exact ⟨hp2.trans hp1, hl2.trans hl1⟩

theorem step2_effects_shape (cfg : Config) (env : Env) (L : List (String × Int)) :
    ∀ {s : StateDoc} {c : Int} {s' : StateDoc} {c' : Int} {effs : List Effect},
      step2 cfg env L s c = (s', c', effs) →
        ∀ e ∈ effs, (∃ v m, e = Effect.send v Kind.video m) ∨
          (∃ m, e = Effect.unpinMsg m) ∨ (∃ m, e = Effect.deleteMsg m) := by
  induction L with
  | nil =>
    intro s c s' c' effs h e he
    obtain ⟨-, -, rfl⟩ := step2_nil cfg env s c h
    cases he
  | cons p rest ih =>
    intro s c s' c' effs h e he
    obtain ⟨s1, c1, e1, e2, h1, h2, rfl⟩ := step2_cons cfg env p rest s c h
    rcases List.mem_append.mp he with h3 | h3
    · exact step2Item_effects_shape h1 e h3
    · exact ih h2 e h3

theorem step2_video_intro (cfg : Config) (env : Env) (L : List (String × Int)) :
    ∀ {s : StateDoc} {c : Int} {s' : StateDoc} {c' : Int} {effs : List Effect},
      step2 cfg env L s c = (s', c', effs) → ∀ w,
        dictMem s'.msg_video w = true →
        dictMem s.msg_video w = true ∨ 1 ≤ countSend effs w Kind.video := by
  induction L with
  | nil =>
    intro s c s' c' effs h w hm
    obtain ⟨rfl, -, -⟩ := step2_nil cfg env s c h
    exact Or.inl hm
  | cons p rest ih =>
    intro s c s' c' effs h w hm
    obtain ⟨s1, c1, e1, e2, h1, h2, rfl⟩ := step2_cons cfg env p rest s c h
    rcases ih h2 w hm with hm1 | hc2
    · rcases step2Item_video_intro h1 w hm1 with hm0 | hc1
      · exact Or.inl hm0
      · refine Or.inr ?_
        rw [countSend_append]
        omega
    · refine Or.inr ?_
      rw [countSend_append]
      omega

theorem step2_pos (cfg : Config) (env : Env) (L : List (String × Int)) :
    ∀ {s : StateDoc} {c : Int} {s' : StateDoc} {c' : Int} {effs : List Effect},
      step2 cfg env L s c = (s', c', effs) → ∀ w,
        (∃ q ∈ L, q.1 = w) → probeOkNotLive env w = true →
        dictMem s.msg_video w = false → (∃ it ∈ env.entries, it.vid = w) →
        1 ≤ countSend effs w Kind.video := by
  induction L with
  | nil =>
    intro s c s' c' effs h w hq
    obtain ⟨q, hm, -⟩ := hq
    cases hm
  | cons p rest ih =>
    intro s c s' c' effs h w hq hnl hmv hent
    obtain ⟨s1, c1, e1, e2, h1, h2, rfl⟩ := step2_cons cfg env p rest s c h
    rw [countSend_append]
    by_cases hp : p.1 = w
    · have hpos := @step2Item_pos cfg env s c p (hp ▸ hnl) (hp ▸ hmv)
        (hp ▸ find_vid_of_mem env.entries w hent)
      rw [h1] at hpos
      have hpos2 : 1 ≤ countSend e1 w Kind.video := by
        rw [← hp]; exact hpos
      omega
    · obtain ⟨sendE, tailE, rfl, htail, hsend, -⟩ :=
        step2Item_spec cfg env s c p h1
      have hmv1 : dictMem s1.msg_video w = false := by
        rcases hsend with ⟨-, hv, -⟩ | ⟨-, -, -, hv, -⟩
        · rw [hv]; exact hmv
        · unfold dictMem
          rw [hv, dictFind_insert, if_neg hp]
          exact hmv
      obtain ⟨q, hmem, hqv⟩ := hq
      rcases List.mem_cons.mp hmem with rfl | hm2
      · exact absurd hqv hp
      · have := ih h2 w ⟨q, hm2, hqv⟩ hnl hmv1 hent
        omega

/-! ## Pin-selector and phase-3 lemmas -/

theorem cptLoop_sound (env : Env) (L : List Entry) {t : Entry} {i : LiveInfo}
    (h : cptLoop env L = some (t, i)) :
    yt_api_video_info env t.vid = .ok i ∧ i.is_live_now = true ∧ t ∈ L := by
  induction L with
  | nil => cases h
  | cons a rest ih =>
    unfold cptLoop at h
    cases hyt : yt_api_video_info env a.vid with
    | error e =>
      rw [hyt] at h
      obtain ⟨h1, h2, h3⟩ := ih h
      exact ⟨h1, h2, List.mem_cons_of_mem a h3⟩
    | ok info =>
      rw [hyt] at h
      simp only at h
      by_cases hl : info.is_live_now = true
      · rw [if_pos hl] at h
        simp only [Option.some.injEq, Prod.mk.injEq] at h
        obtain ⟨rfl, rfl⟩ := h
        exact ⟨hyt, hl, List.mem_cons_self a rest⟩
      · rw [if_neg hl] at h
        obtain ⟨h1, h2, h3⟩ := ih h
        exact ⟨h1, h2, List.mem_cons_of_mem a h3⟩

theorem choose_sound (env : Env) (entries : List Entry) {t : Entry}
    {i : LiveInfo} (h : choose_pin_target env entries = .ok (t, i)) :
    yt_api_video_info env t.vid = .ok i := by
  unfold choose_pin_target at h
  cases hcpt : cptLoop env entries with
  | some r =>
    obtain ⟨t2, i2⟩ := r
    rw [hcpt] at h
    simp only [Except.ok.injEq, Prod.mk.injEq] at h
    obtain ⟨rfl, rfl⟩ := h
    exact (cptLoop_sound env entries hcpt).1
  | none =>
    rw [hcpt] at h
    cases entries with
    | nil => cases h
    | cons e0 rest =>
      simp only at h
      cases hyt : yt_api_video_info env e0.vid with
      | error e => rw [hyt] at h; cases h
      | ok info =>
        rw [hyt] at h
        simp only [Except.ok.injEq, Prod.mk.injEq] at h
        obtain ⟨rfl, rfl⟩ := h
        exact hyt

theorem step3pin_spec (env : Env) (target : Entry) (tkind : Kind)
    (s1 : StateDoc) (c1 : Int) (effs : List Effect) (pin_mid : Int) :
    ∃ tail s',
      step3pin env target tkind s1 c1 effs pin_mid = (s', c1, effs ++ tail) ∧
      s'.msg_live = s1.msg_live ∧ s'.msg_video = s1.msg_video ∧
      s'.notified = s1.notified ∧ s'.last_seen_epoch = s1.last_seen_epoch ∧
      (∀ e ∈ tail, (∃ m, e = Effect.unpinMsg m) ∨ (∃ m, e = Effect.pinMsg m)) ∧
      (tail = [] ∨ (s1.pinned_message_id ≠ some pin_mid ∧
        tail = (match s1.pinned_message_id with
          | some p2 => if p2 ≠ 0 then [Effect.unpinMsg p2] else []
          | none => []) ++ [Effect.pinMsg pin_mid])) := by
  unfold step3pin
  by_cases hprev : s1.pinned_message_id = some pin_mid
  · refine ⟨[], s1, ?_, rfl, rfl, rfl, rfl, ?_, Or.inl rfl⟩
    · rw [if_pos hprev]
      simp
    · intro e he; cases he
  · rw [if_neg hprev]
    simp only
    set unp := (match s1.pinned_message_id with
      | some p2 => if p2 ≠ 0 then [Effect.unpinMsg p2] else []
      | none => ([] : List Effect)) with hunp
    have htail : ∀ e ∈ unp ++ [Effect.pinMsg pin_mid],
        (∃ m, e = Effect.unpinMsg m) ∨ (∃ m, e = Effect.pinMsg m) := by
      intro e he
      rcases List.mem_append.mp he with h1 | h1
      · rw [hunp] at h1
        rcases hpm : s1.pinned_message_id with _ | p2 <;> rw [hpm] at h1 <;>
          dsimp only at h1
        · cases h1
        · by_cases hz : p2 ≠ 0
          · rw [if_pos hz] at h1
            rcases List.mem_singleton.mp h1 with rfl
            exact Or.inl ⟨p2, rfl⟩
          · rw [if_neg hz] at h1
            cases h1
      · rcases List.mem_singleton.mp h1 with rfl
        exact Or.inr ⟨pin_mid, rfl⟩
    by_cases hok : env.pinOk pin_mid = true
    · rw [if_pos hok]
      refine ⟨unp ++ [Effect.pinMsg pin_mid],
        { s1 with
            pinned_message_id := some pin_mid
            pinned_vid := some target.vid
            pinned_kind := some tkind },
        ?_, rfl, rfl, rfl, rfl, htail, Or.inr ⟨hprev, rfl⟩⟩
      rw [List.append_assoc]
    · rw [if_neg hok]
      exact ⟨unp ++ [Effect.pinMsg pin_mid], s1, by rw [List.append_assoc],
        rfl, rfl, rfl, rfl, htail, Or.inr ⟨hprev, rfl⟩⟩

theorem step3ensure_found_live {env : Env} {target : Entry} {s : StateDoc}
    {c : Int} {mid : Int} (hfind : dictFind s.msg_live target.vid = some mid) :
    step3ensure env true target s c = (s, c, [], mid) := by
  simp [step3ensure, hfind]

theorem step3ensure_new_live {env : Env} {target : Entry} {s : StateDoc}
    {c : Int} (hfind : dictFind s.msg_live target.vid = none) :
    step3ensure env true target s c =
      ({ s with
          msg_live := dictInsert s.msg_live target.vid c
          last_kind := dictInsert s.last_kind target.vid Kind.live
          notified := dictSetdefault s.notified target.vid env.now },
       c + 1, [Effect.send target.vid Kind.live c], c) := by
  simp [step3ensure, hfind]

theorem step3ensure_found_video {env : Env} {target : Entry} {s : StateDoc}
    {c : Int} {mid : Int} (hfind : dictFind s.msg_video target.vid = some mid) :
    step3ensure env false target s c = (s, c, [], mid) := by
  simp [step3ensure, hfind]

theorem step3ensure_new_video {env : Env} {target : Entry} {s : StateDoc}
    {c : Int} (hfind : dictFind s.msg_video target.vid = none) :
    step3ensure env false target s c =
      ({ s with
          msg_video := dictInsert s.msg_video target.vid c
          last_kind := dictInsert s.last_kind target.vid Kind.video
          notified := dictSetdefault s.notified target.vid env.now },
       c + 1, [Effect.send target.vid Kind.video c], c) := by
  simp [step3ensure, hfind]

/-- Outcome characterization of phase 3: the effects are an optional post of
the pin target (only when no message of the target kind was recorded)
followed by the unpin/pin attempts, and the unpin of the truthy recorded pin
comes right before the new pin. -/
theorem step3_spec (cfg : Config) (env : Env) (s : StateDoc) (c : Int)
    {s' : StateDoc} {c' : Int} {effs : List Effect}
    (h : step3 cfg env s c = .ok (s', c', effs)) :
    ∃ sendE tail, effs = sendE ++ tail ∧
      (∀ e ∈ tail, (∃ m, e = Effect.unpinMsg m) ∨ (∃ m, e = Effect.pinMsg m)) ∧
      s'.last_seen_epoch = s.last_seen_epoch ∧
      ((sendE = [] ∧ s'.msg_live = s.msg_live ∧ s'.msg_video = s.msg_video ∧
        s'.notified = s.notified) ∨
       (∃ target tinfo,
         choose_pin_target env env.entries = .ok (target, tinfo) ∧
         s'.notified = dictSetdefault s.notified target.vid env.now ∧
         ((tinfo.is_live_now = true ∧
           sendE = [Effect.send target.vid Kind.live c] ∧
           dictMem s.msg_live target.vid = false ∧
           s'.msg_live = dictInsert s.msg_live target.vid c ∧
           s'.msg_video = s.msg_video) ∨
          (tinfo.is_live_now = false ∧
           sendE = [Effect.send target.vid Kind.video c] ∧
           dictMem s.msg_video target.vid = false ∧
           s'.msg_video = dictInsert s.msg_video target.vid c ∧
           s'.msg_live = s.msg_live)))) ∧
      (tail = [] ∨ ∃ pin_mid, s.pinned_message_id ≠ some pin_mid ∧
        tail = (match s.pinned_message_id with
          | some p2 => if p2 ≠ 0 then [Effect.unpinMsg p2] else []
          | none => []) ++ [Effect.pinMsg pin_mid]) := by
  unfold step3 at h
  by_cases hpl : cfg.pin_latest = true
  · simp only [hpl, Bool.not_true, Bool.false_eq_true, if_false] at h
    cases hcpt : choose_pin_target env env.entries with
    | error e => rw [hcpt] at h; cases h
    | ok r =>
      obtain ⟨target, tinfo⟩ := r
      rw [hcpt] at h
      dsimp only at h
      cases hlive : tinfo.is_live_now with
      | true =>
        rw [hlive] at h
        cases hfind : dictFind s.msg_live target.vid with
        | some mid =>
          rw [step3ensure_found_live hfind] at h
          obtain ⟨tail, s2, heq, hml, hmv, hnf, hls, htail, hstruct⟩ :=
            step3pin_spec env target (if true = true then Kind.live
              else Kind.video) s c [] mid
          rw [heq] at h
          simp only [Except.ok.injEq, Prod.mk.injEq] at h
          obtain ⟨rfl, rfl, rfl⟩ := h
          exact ⟨[], tail, by simp, htail, hls,
            Or.inl ⟨rfl, hml, hmv, hnf⟩,
            hstruct.imp id fun hx => ⟨mid, hx⟩⟩
        | none =>
          rw [step3ensure_new_live hfind] at h
          obtain ⟨tail, s2, heq, hml, hmv, hnf, hls, htail, hstruct⟩ :=
            step3pin_spec env target (if true = true then Kind.live
              else Kind.video)
              ({ s with
                  msg_live := dictInsert s.msg_live target.vid c
                  last_kind := dictInsert s.last_kind target.vid Kind.live
                  notified := dictSetdefault s.notified target.vid env.now })
              (c + 1) [Effect.send target.vid Kind.live c] c
          rw [heq] at h
          simp only [Except.ok.injEq, Prod.mk.injEq] at h
          obtain ⟨rfl, rfl, rfl⟩ := h
          refine ⟨[Effect.send target.vid Kind.live c], tail, rfl, htail,
            hls, Or.inr ⟨target, tinfo, rfl, hnf, Or.inl
              ⟨hlive, rfl, ?_, hml, hmv⟩⟩,
            hstruct.imp id fun hx => ⟨c, hx⟩⟩
          unfold dictMem
          rw [hfind]
          rfl
      | false =>
        rw [hlive] at h
        cases hfind : dictFind s.msg_video target.vid with
        | some mid =>
          rw [step3ensure_found_video hfind] at h
          obtain ⟨tail, s2, heq, hml, hmv, hnf, hls, htail, hstruct⟩ :=
            step3pin_spec env target (if false = true then Kind.live
              else Kind.video) s c [] mid
          rw [heq] at h
          simp only [Except.ok.injEq, Prod.mk.injEq] at h
          obtain ⟨rfl, rfl, rfl⟩ := h
          exact ⟨[], tail, by simp, htail, hls,
            Or.inl ⟨rfl, hml, hmv, hnf⟩,
            hstruct.imp id fun hx => ⟨mid, hx⟩⟩
        | none =>
          rw [step3ensure_new_video hfind] at h
          obtain ⟨tail, s2, heq, hml, hmv, hnf, hls, htail, hstruct⟩ :=
            step3pin_spec env target (if false = true then Kind.live
              else Kind.video)
              ({ s with
                  msg_video := dictInsert s.msg_video target.vid c
                  last_kind := dictInsert s.last_kind target.vid Kind.video
                  notified := dictSetdefault s.notified target.vid env.now })
              (c + 1) [Effect.send target.vid Kind.video c] c
          rw [heq] at h
          simp only [Except.ok.injEq, Prod.mk.injEq] at h
          obtain ⟨rfl, rfl, rfl⟩ := h
          refine ⟨[Effect.send target.vid Kind.video c], tail, rfl, htail,
            hls, Or.inr ⟨target, tinfo, rfl, hnf, Or.inr
              ⟨hlive, rfl, ?_, hmv, hml⟩⟩,
            hstruct.imp id fun hx => ⟨c, hx⟩⟩
          unfold dictMem
          rw [hfind]
          rfl
  · have hplf : cfg.pin_latest = false := Bool.not_eq_true _ ▸ hpl
    rw [hplf] at h
    simp only [Bool.not_false, if_true, Except.ok.injEq, Prod.mk.injEq] at h
    obtain ⟨rfl, rfl, rfl⟩ := h
    exact ⟨[], [], rfl, fun e he => absurd he (List.not_mem_nil e), rfl,
      Or.inl ⟨rfl, rfl, rfl, rfl⟩, Or.inl rfl⟩

theorem countSend_pintail_zero {l : List Effect}
    (h : ∀ e ∈ l, (∃ m, e = Effect.unpinMsg m) ∨ (∃ m, e = Effect.pinMsg m))
    (w : String) (k : Kind) : countSend l w k = 0 := by
  refine countSend_no_send ?_ w k
  intro e he v kk m
  rcases h e he with ⟨m2, rfl⟩ | ⟨m2, rfl⟩ <;> simp

theorem step3_count_le {cfg : Config} {env : Env} {s : StateDoc} {c : Int}
    {s' : StateDoc} {c' : Int} {effs : List Effect}
    (h : step3 cfg env s c = .ok (s', c', effs)) (w : String) (k : Kind) :
    countSend effs w k ≤ 1 := by
  obtain ⟨sendE, tail, rfl, htail, -, hsend, -⟩ := step3_spec cfg env s c h
  rw [countSend_append, countSend_pintail_zero htail]
  rcases hsend with ⟨rfl, -⟩ | ⟨t, ti, -, -, ⟨-, rfl, -⟩ | ⟨-, rfl, -⟩⟩
  · exact Nat.zero_le 1
  · rw [countSend_single_send]
    by_cases hcc : t.vid = w ∧ Kind.live = k <;> simp [hcc]
  · rw [countSend_single_send]
    by_cases hcc : t.vid = w ∧ Kind.video = k <;> simp [hcc]

theorem step3_live_send {cfg : Config} {env : Env} {s : StateDoc} {c : Int}
    {s' : StateDoc} {c' : Int} {effs : List Effect}
    (h : step3 cfg env s c = .ok (s', c', effs)) (w : String)
    (hc : 1 ≤ countSend effs w Kind.live) :
    probeIsLive env w = true ∧ dictMem s'.msg_live w = true ∧
      dictMem s'.notified w = true := by
  obtain ⟨sendE, tail, rfl, htail, -, hsend, -⟩ := step3_spec cfg env s c h
  rw [countSend_append, countSend_pintail_zero htail] at hc
  rcases hsend with ⟨rfl, -⟩ | ⟨t, ti, hcpt, hnf, ⟨hl, rfl, -, hml, -⟩ |
      ⟨-, rfl, -⟩⟩
  · cases hc
  · rw [countSend_single_send] at hc
    by_cases hcc : t.vid = w ∧ Kind.live = Kind.live
    · obtain ⟨rfl, -⟩ := hcc
      refine ⟨?_, ?_, ?_⟩
      · simp [probeIsLive, choose_sound env env.entries hcpt, hl]
      · rw [hml, dictMem_insert]
        simp
      · rw [hnf, dictMem_setdefault]
        simp
    · rw [if_neg hcc] at hc
      cases hc
  · rw [countSend_single_send] at hc
    rw [if_neg (by rintro ⟨-, hk⟩; cases hk)] at hc
    cases hc

theorem step3_video_send {cfg : Config} {env : Env} {s : StateDoc} {c : Int}
    {s' : StateDoc} {c' : Int} {effs : List Effect}
    (h : step3 cfg env s c = .ok (s', c', effs)) (w : String)
    (hc : 1 ≤ countSend effs w Kind.video) :
    probeOkNotLive env w = true ∧ dictMem s'.msg_video w = true ∧
      dictMem s.msg_video w = false := by
  obtain ⟨sendE, tail, rfl, htail, -, hsend, -⟩ := step3_spec cfg env s c h
  rw [countSend_append, countSend_pintail_zero htail] at hc
  rcases hsend with ⟨rfl, -⟩ | ⟨t, ti, hcpt, -, ⟨-, rfl, -⟩ |
      ⟨hl, rfl, hmvf, hmv, -⟩⟩
  · cases hc
  · rw [countSend_single_send] at hc
    rw [if_neg (by rintro ⟨-, hk⟩; cases hk)] at hc
    cases hc
  · rw [countSend_single_send] at hc
    by_cases hcc : t.vid = w ∧ Kind.video = Kind.video
    · obtain ⟨rfl, -⟩ := hcc
      refine ⟨?_, ?_, hmvf⟩
      · simp [probeOkNotLive, choose_sound env env.entries hcpt, hl]
      · rw [hmv, dictMem_insert]
        simp
    · rw [if_neg hcc] at hc
      cases hc

theorem step3_live_skip {cfg : Config} {env : Env} {s : StateDoc} {c : Int}
    {s' : StateDoc} {c' : Int} {effs : List Effect}
    (h : step3 cfg env s c = .ok (s', c', effs)) (w : String)
    (hm : dictMem s.msg_live w = true) :
    countSend effs w Kind.live = 0 ∧ dictMem s'.msg_live w = true := by
  obtain ⟨sendE, tail, rfl, htail, -, hsend, -⟩ := step3_spec cfg env s c h
  rw [countSend_append, countSend_pintail_zero htail]
  rcases hsend with ⟨rfl, hml, -⟩ | ⟨t, ti, -, -, ⟨-, rfl, hmlf, hml, -⟩ |
      ⟨-, rfl, -, -, hml⟩⟩
  · rw [hml]
    exact ⟨rfl, hm⟩
  · have hne : t.vid ≠ w := fun hc => by rw [hc, hm] at hmlf; cases hmlf
    constructor
    · rw [countSend_single_send, if_neg (fun hc => hne hc.1)]
    · rw [hml, dictMem_insert]
      simp [hm]
  · rw [countSend_single_send, hml]
    refine ⟨?_, hm⟩
    rw [if_neg (by rintro ⟨-, hk⟩; cases hk)]

theorem step3_video_skip {cfg : Config} {env : Env} {s : StateDoc} {c : Int}
    {s' : StateDoc} {c' : Int} {effs : List Effect}
    (h : step3 cfg env s c = .ok (s', c', effs)) (w : String)
    (hm : dictMem s.msg_video w = true) :
    countSend effs w Kind.video = 0 ∧ dictMem s'.msg_video w = true := by
  obtain ⟨sendE, tail, rfl, htail, -, hsend, -⟩ := step3_spec cfg env s c h
  rw [countSend_append, countSend_pintail_zero htail]
  rcases hsend with ⟨rfl, -, hmv, -⟩ | ⟨t, ti, -, -, ⟨-, rfl, -, -, hmv⟩ |
      ⟨-, rfl, hmvf, hmv, -⟩⟩
  · rw [hmv]
    exact ⟨rfl, hm⟩
  · rw [countSend_single_send, hmv]
    refine ⟨?_, hm⟩
    rw [if_neg (by rintro ⟨-, hk⟩; cases hk)]
  · have hne : t.vid ≠ w := fun hc => by rw [hc, hm] at hmvf; cases hmvf
    constructor
    · rw [countSend_single_send, if_neg (fun hc => hne hc.1)]
    · rw [hmv, dictMem_insert]
      simp [hm]

theorem step3_video_intro {cfg : Config} {env : Env} {s : StateDoc} {c : Int}
    {s' : StateDoc} {c' : Int} {effs : List Effect}
    (h : step3 cfg env s c = .ok (s', c', effs)) (w : String)
    (hm : dictMem s'.msg_video w = true) :
    dictMem s.msg_video w = true ∨ 1 ≤ countSend effs w Kind.video := by
  obtain ⟨sendE, tail, rfl, htail, -, hsend, -⟩ := step3_spec cfg env s c h
  rcases hsend with ⟨rfl, -, hmv, -⟩ | ⟨t, ti, -, -, ⟨-, rfl, -, -, hmv⟩ |
      ⟨-, rfl, -, hmv, -⟩⟩
  · rw [hmv] at hm
    exact Or.inl hm
  · rw [hmv] at hm
    exact Or.inl hm
  · rw [hmv, dictMem_insert] at hm
    by_cases ht : t.vid = w
    · refine Or.inr ?_
      rw [countSend_append, countSend_single_send, if_pos ⟨ht, rfl⟩]
      omega
    · simp [ht] at hm
      exact Or.inl hm

theorem step3_notified_mono {cfg : Config} {env : Env} {s : StateDoc} {c : Int}
    {s' : StateDoc} {c' : Int} {effs : List Effect}
    (h : step3 cfg env s c = .ok (s', c', effs)) (w : String)
    (hm : dictMem s.notified w = true) : dictMem s'.notified w = true := by
  obtain ⟨sendE, tail, rfl, -, -, hsend, -⟩ := step3_spec cfg env s c h
  rcases hsend with ⟨-, -, -, hnf⟩ | ⟨t, ti, -, hnf, -⟩
  · rw [hnf]; exact hm
  · rw [hnf, dictMem_setdefault]
    simp [hm]

theorem step3_msglive_mono {cfg : Config} {env : Env} {s : StateDoc} {c : Int}
    {s' : StateDoc} {c' : Int} {effs : List Effect}
    (h : step3 cfg env s c = .ok (s', c', effs)) (w : String)
    (hm : dictMem s.msg_live w = true) : dictMem s'.msg_live w = true :=
  (step3_live_skip h w hm).2

theorem step3_effects_shape {cfg : Config} {env : Env} {s : StateDoc} {c : Int}
    {s' : StateDoc} {c' : Int} {effs : List Effect}
    (h : step3 cfg env s c = .ok (s', c', effs)) :
    ∀ e ∈ effs, (∃ v k m, e = Effect.send v k m) ∨
      (∃ m, e = Effect.unpinMsg m) ∨ (∃ m, e = Effect.pinMsg m) := by
  obtain ⟨sendE, tail, rfl, htail, -, hsend, -⟩ := step3_spec cfg env s c h
  intro e he
  rcases List.mem_append.mp he with h1 | h1
  · rcases hsend with ⟨rfl, -⟩ | ⟨t, ti, -, -, ⟨-, rfl, -⟩ | ⟨-, rfl, -⟩⟩
    · cases h1
    all_goals rcases List.mem_singleton.mp h1 with rfl
    all_goals exact Or.inl ⟨t.vid, _, c, rfl⟩
  · exact Or.inr (htail e h1)

theorem step3_pin_structure {cfg : Config} {env : Env} {s : StateDoc} {c : Int}
    {s' : StateDoc} {c' : Int} {effs : List Effect}
    (h : step3 cfg env s c = .ok (s', c', effs)) {p : Int} {m : Int}
    (hp : s.pinned_message_id = some p) (hpz : p ≠ 0)
    (hmem : Effect.pinMsg m ∈ effs) :
    ∃ l1, effs = l1 ++ [Effect.unpinMsg p, Effect.pinMsg m] := by
  obtain ⟨sendE, tail, rfl, htail, -, hsend, hstruct⟩ := step3_spec cfg env s c h
  have hmt : Effect.pinMsg m ∈ tail := by
    rcases List.mem_append.mp hmem with h1 | h1
    · exfalso
      rcases hsend with ⟨rfl, -⟩ | ⟨t, ti, -, -, ⟨-, rfl, -⟩ | ⟨-, rfl, -⟩⟩
      · cases h1
      all_goals rcases List.mem_singleton.mp h1 with h2
      all_goals cases h2
    · exact h1
  rcases hstruct with rfl | ⟨pin_mid, hne, rfl⟩
  · cases hmt
  · rw [hp] at hmt ⊢
    dsimp only at hmt ⊢
    rw [if_pos hpz] at hmt ⊢
    have hm2 : m = pin_mid := by
      rcases List.mem_append.mp hmt with h1 | h1
      · simp at h1
      · simp at h1
        exact h1
    subst hm2
    exact ⟨sendE, by simp⟩

theorem step2Item_notified_mono {cfg : Config} {env : Env} {s : StateDoc}
    {c : Int} {p : String × Int} {s' : StateDoc} {c' : Int} {effs : List Effect}
    (h : step2Item cfg env s c p = (s', c', effs)) (w : String)
    (hm : dictMem s.notified w = true) : dictMem s'.notified w = true := by
  obtain ⟨sendE, tailE, -, -, hsend, -⟩ := step2Item_spec cfg env s c p h
  rcases hsend with ⟨-, -, hnf, -⟩ | ⟨-, -, -, -, hnf, -⟩
  · rw [hnf]; exact hm
  · rw [hnf, dictMem_setdefault]
    simp [hm]

theorem step2_notified_mono (cfg : Config) (env : Env) (L : List (String × Int)) :
    ∀ {s : StateDoc} {c : Int} {s' : StateDoc} {c' : Int} {effs : List Effect},
      step2 cfg env L s c = (s', c', effs) → ∀ w,
        dictMem s.notified w = true → dictMem s'.notified w = true := by
  induction L with
  | nil =>
    intro s c s' c' effs h w hm
    obtain ⟨rfl, -, -⟩ := step2_nil cfg env s c h
    exact hm
  | cons p rest ih =>
    intro s c s' c' effs h w hm
    obtain ⟨s1, c1, e1, e2, h1, h2, rfl⟩ := step2_cons cfg env p rest s c h
    exact ih h2 w (step2Item_notified_mono h1 w hm)

theorem dictMem_exists {α : Type} (m : List (String × α)) (w : String)
    (h : dictMem m w = true) : ∃ q ∈ m, q.1 = w := by
  induction m with
  | nil => cases h
  | cons p rest ih =>
    unfold dictMem dictFind at h
    by_cases hp : p.1 = w
    · exact ⟨p, List.mem_cons_self p rest, hp⟩
    · obtain ⟨p2, hv⟩ := p
      simp [hp] at h
      obtain ⟨q, hm2, hq⟩ := ih h
      exact ⟨q, List.mem_cons_of_mem _ hm2, hq⟩

theorem mem_insertByEpoch (x y : Entry) (L : List Entry) :
    y ∈ insertByEpoch x L ↔ y = x ∨ y ∈ L := by
  induction L with
  | nil => simp [insertByEpoch]
  | cons a rest ih =>
    unfold insertByEpoch
    by_cases hc : x.published_epoch ≤ a.published_epoch
    · rw [if_pos hc]
      simp
    · rw [if_neg hc]
      simp only [List.mem_cons, ih]
      tauto

theorem mem_sortByEpoch (x : Entry) (L : List Entry) :
    x ∈ sortByEpoch L ↔ x ∈ L := by
  induction L with
  | nil => simp [sortByEpoch]
  | cons a rest ih =>
    unfold sortByEpoch
    rw [mem_insertByEpoch]
    simp only [List.mem_cons, ih]

theorem mem_newItems (env : Env) (last : Int) (e : Entry) :
    e ∈ newItems env last ↔ e ∈ env.entries ∧ last < e.published_epoch := by
  unfold newItems
  rw [List.mem_filter, mem_sortByEpoch]
  simp

/-! ## Whole-cycle (run_once) lemmas -/

theorem run_once_empty (cfg : Config) (env : Env) (s : StateDoc) (c : Int)
    (h : env.entries = []) : run_once cfg env s c = .ok (s, c, []) := by
  unfold run_once
  rw [h]

theorem run_once_baseline (cfg : Config) (env : Env) (s : StateDoc) (c : Int)
    (e0 : Entry) (rest : List Entry) (hent : env.entries = e0 :: rest)
    (hb : cfg.baseline_only = true ∨ s.last_seen_epoch = 0) :
    run_once cfg env s c = .ok
      ({ s with last_seen_epoch :=
          if e0.published_epoch ≠ 0 then e0.published_epoch else env.now },
       c, []) := by
  unfold run_once
  rw [hent]
  dsimp only
  rw [if_pos hb]

theorem cursorAdv_fields (s1 : StateDoc) (b : Prop) [Decidable b] (t : Int) :
    (if b then { s1 with last_seen_epoch := t } else s1).msg_live =
      s1.msg_live ∧
    (if b then { s1 with last_seen_epoch := t } else s1).msg_video =
      s1.msg_video ∧
    (if b then { s1 with last_seen_epoch := t } else s1).notified =
      s1.notified ∧
    (if b then { s1 with last_seen_epoch := t } else s1).pinned_message_id =
      s1.pinned_message_id := by
  split <;> exact ⟨rfl, rfl, rfl, rfl⟩

theorem run_once_cases (cfg : Config) (env : Env) (s : StateDoc) (c : Int)
    {s' : StateDoc} {c' : Int} {effs : List Effect}
    (h : run_once cfg env s c = .ok (s', c', effs)) :
    (s' = s ∧ effs = [] ∧ c' = c ∧ env.entries = []) ∨
    (∃ e0 rest, env.entries = e0 :: rest ∧
      (cfg.baseline_only = true ∨ s.last_seen_epoch = 0) ∧
      s' = { s with last_seen_epoch :=
        if e0.published_epoch ≠ 0 then e0.published_epoch else env.now } ∧
      effs = [] ∧ c' = c) ∨
    (∃ e0 rest s1 c1 e1 sAdv s2 c2 e2 e3,
      env.entries = e0 :: rest ∧
      step1 env (newItems env s.last_seen_epoch) s c = .ok (s1, c1, e1) ∧
      sAdv = (if s.last_seen_epoch < e0.published_epoch
        then { s1 with last_seen_epoch := e0.published_epoch } else s1) ∧
      step2 cfg env sAdv.msg_live sAdv c1 = (s2, c2, e2) ∧
      step3 cfg env s2 c2 = .ok (s', c', e3) ∧
      effs = e1 ++ e2 ++ e3) := by
  cases hent : env.entries with
  | nil =>
    rw [run_once_empty cfg env s c hent] at h
    simp only [Except.ok.injEq, Prod.mk.injEq] at h
    obtain ⟨rfl, rfl, rfl⟩ := h
    exact Or.inl ⟨rfl, rfl, rfl, rfl⟩
  | cons e0 rest =>
    by_cases hb : cfg.baseline_only = true ∨ s.last_seen_epoch = 0
    · rw [run_once_baseline cfg env s c e0 rest hent hb] at h
      simp only [Except.ok.injEq, Prod.mk.injEq] at h
      obtain ⟨rfl, rfl, rfl⟩ := h
      exact Or.inr (Or.inl ⟨e0, rest, rfl, hb, rfl, rfl, rfl⟩)
    · unfold run_once at h
      rw [hent] at h
      dsimp only at h
      rw [if_neg hb] at h
      cases hst1 : step1 env (newItems env s.last_seen_epoch) s c with
      | error e => rw [hst1] at h; cases h
      | ok r1 =>
        obtain ⟨s1, c1, e1⟩ := r1
        rw [hst1] at h
        dsimp only at h
        cases hst3 : step3 cfg env
          (step2 cfg env (if s.last_seen_epoch < e0.published_epoch
            then { s1 with last_seen_epoch := e0.published_epoch }
            else s1).msg_live
            (if s.last_seen_epoch < e0.published_epoch
              then { s1 with last_seen_epoch := e0.published_epoch }
              else s1) c1).1
          (step2 cfg env (if s.last_seen_epoch < e0.published_epoch
            then { s1 with last_seen_epoch := e0.published_epoch }
            else s1).msg_live
            (if s.last_seen_epoch < e0.published_epoch
              then { s1 with last_seen_epoch := e0.published_epoch }
              else s1) c1).2.1 with
        | error e => rw [hst3] at h; cases h
        | ok r3 =>
          obtain ⟨s3, c3, e3⟩ := r3
          rw [hst3] at h
          simp only [Except.ok.injEq, Prod.mk.injEq] at h
          obtain ⟨rfl, rfl, rfl⟩ := h
          exact Or.inr (Or.inr ⟨e0, rest, s1, c1, e1, _, _, _, _, e3, rfl,
            rfl, rfl, rfl, hst3, rfl⟩)

theorem run_once_count_le {cfg : Config} {env : Env} {s : StateDoc} {c : Int}
    {s' : StateDoc} {c' : Int} {effs : List Effect}
    (h : run_once cfg env s c = .ok (s', c', effs)) (w : String) (k : Kind) :
    countSend effs w k ≤ 1 := by
  rcases run_once_cases cfg env s c h with ⟨rfl, rfl, rfl, -⟩ |
    ⟨e0, rest, -, -, rfl, rfl, rfl⟩ |
    ⟨e0, rest, s1, c1, e1, sAdv, s2, c2, e2, e3, hent, h1, hAdv, h2, h3, rfl⟩
  · exact Nat.zero_le 1
  · exact Nat.zero_le 1
  · have hfields := cursorAdv_fields s1
      (s.last_seen_epoch < e0.published_epoch) e0.published_epoch
    rw [← hAdv] at hfields
    obtain ⟨hAl, hAv, hAn, hAp⟩ := hfields
    rw [countSend_append, countSend_append]
    cases k with
    | live =>
      cases hc1 : countSend e1 w Kind.live with
      | zero =>
        have hz2 := step2_live_count cfg env sAdv.msg_live h2 w
        have hle3 := step3_count_le h3 w Kind.live
        omega
      | succ n =>
        have hle1 := step1_count_le env (newItems env s.last_seen_epoch) h1 w
          Kind.live
        obtain ⟨-, hplt, -⟩ := step1_send_establishes env
          (newItems env s.last_seen_epoch) h1 w Kind.live (by omega)
        obtain ⟨hpl, hml1⟩ := hplt rfl
        have hml2 : dictMem s2.msg_live w = true := by
          refine step2_msglive_pres cfg env sAdv.msg_live h2 w
            (probeIsLive_not_notLive hpl) ?_
          rw [hAl]
          exact hml1
        have hz2 := step2_live_count cfg env sAdv.msg_live h2 w
        have hz3 := (step3_live_skip h3 w hml2).1
        omega
    | video =>
      cases hc1 : countSend e1 w Kind.video with
      | zero =>
        cases hc2 : countSend e2 w Kind.video with
        | zero =>
          have hle3 := step3_count_le h3 w Kind.video
          omega
        | succ n =>
          have hle2 := step2_count_le cfg env sAdv.msg_live h2 w
          obtain ⟨-, hmv2⟩ := step2_video_send cfg env sAdv.msg_live h2 w
            (by omega)
          have hz3 := (step3_video_skip h3 w hmv2).1
          omega
      | succ n =>
        have hle1 := step1_count_le env (newItems env s.last_seen_epoch) h1 w
          Kind.video
        obtain ⟨-, -, hvt⟩ := step1_send_establishes env
          (newItems env s.last_seen_epoch) h1 w Kind.video (by omega)
        obtain ⟨-, hmv1⟩ := hvt rfl
        have hmv2 : dictMem s2.msg_video w = true := by
          refine (step2_video_skip cfg env sAdv.msg_live h2 w ?_).1
          rw [hAv]
          exact hmv1
        have hz2 : countSend e2 w Kind.video = 0 := by
          refine (step2_video_skip cfg env sAdv.msg_live h2 w ?_).2
          rw [hAv]
          exact hmv1
        have hz3 := (step3_video_skip h3 w hmv2).1
        omega

theorem run_once_live_send {cfg : Config} {env : Env} {s : StateDoc} {c : Int}
    {s' : StateDoc} {c' : Int} {effs : List Effect}
    (h : run_once cfg env s c = .ok (s', c', effs)) (w : String)
    (hc : 1 ≤ countSend effs w Kind.live) :
    probeIsLive env w = true ∧ dictMem s'.msg_live w = true ∧
      dictMem s'.notified w = true := by
  rcases run_once_cases cfg env s c h with ⟨rfl, rfl, rfl, -⟩ |
    ⟨e0, rest, -, -, rfl, rfl, rfl⟩ |
    ⟨e0, rest, s1, c1, e1, sAdv, s2, c2, e2, e3, hent, h1, hAdv, h2, h3, rfl⟩
  · cases hc
  · cases hc
  · have hfields := cursorAdv_fields s1
      (s.last_seen_epoch < e0.published_epoch) e0.published_epoch
    rw [← hAdv] at hfields
    obtain ⟨hAl, hAv, hAn, hAp⟩ := hfields
    rw [countSend_append, countSend_append] at hc
    cases hc1 : countSend e1 w Kind.live with
    | succ n =>
      obtain ⟨hn1, hplt, -⟩ := step1_send_establishes env
        (newItems env s.last_seen_epoch) h1 w Kind.live (by omega)
      obtain ⟨hpl, hml1⟩ := hplt rfl
      have hml2 : dictMem s2.msg_live w = true := by
        refine step2_msglive_pres cfg env sAdv.msg_live h2 w
          (probeIsLive_not_notLive hpl) ?_
        rw [hAl]; exact hml1
      have hn2 : dictMem s2.notified w = true := by
        refine step2_notified_mono cfg env sAdv.msg_live h2 w ?_
        rw [hAn]; exact hn1
      exact ⟨hpl, (step3_live_skip h3 w hml2).2, step3_notified_mono h3 w hn2⟩
    | zero =>
      rw [hc1, step2_live_count cfg env sAdv.msg_live h2 w] at hc
      obtain ⟨hpl, hml3, hn3⟩ := step3_live_send h3 w (by omega)
      exact ⟨hpl, hml3, hn3⟩

theorem run_once_video_send {cfg : Config} {env : Env} {s : StateDoc} {c : Int}
    {s' : StateDoc} {c' : Int} {effs : List Effect}
    (h : run_once cfg env s c = .ok (s', c', effs)) (w : String)
    (hc : 1 ≤ countSend effs w Kind.video) :
    probeOkNotLive env w = true ∧ dictMem s'.msg_video w = true := by
  rcases run_once_cases cfg env s c h with ⟨rfl, rfl, rfl, -⟩ |
    ⟨e0, rest, -, -, rfl, rfl, rfl⟩ |
    ⟨e0, rest, s1, c1, e1, sAdv, s2, c2, e2, e3, hent, h1, hAdv, h2, h3, rfl⟩
  · cases hc
  · cases hc
  · have hfields := cursorAdv_fields s1
      (s.last_seen_epoch < e0.published_epoch) e0.published_epoch
    rw [← hAdv] at hfields
    obtain ⟨hAl, hAv, hAn, hAp⟩ := hfields
    rw [countSend_append, countSend_append] at hc
    cases hc1 : countSend e1 w Kind.video with
    | succ n =>
      obtain ⟨-, -, hvt⟩ := step1_send_establishes env
        (newItems env s.last_seen_epoch) h1 w Kind.video (by omega)
      obtain ⟨hnl, hmv1⟩ := hvt rfl
      have hmv2 : dictMem s2.msg_video w = true := by
        refine (step2_video_skip cfg env sAdv.msg_live h2 w ?_).1
        rw [hAv]; exact hmv1
      exact ⟨hnl, (step3_video_skip h3 w hmv2).2⟩
    | zero =>
      rw [hc1] at hc
      cases hc2 : countSend e2 w Kind.video with
      | succ n =>
        obtain ⟨hnl, hmv2⟩ := step2_video_send cfg env sAdv.msg_live h2 w
          (by omega)
        exact ⟨hnl, (step3_video_skip h3 w hmv2).2⟩
      | zero =>
        rw [hc2] at hc
        obtain ⟨hnl, hmv3, -⟩ := step3_video_send h3 w (by omega)
        exact ⟨hnl, hmv3⟩

theorem run_once_live_skip {cfg : Config} {env : Env} {s : StateDoc} {c : Int}
    {s' : StateDoc} {c' : Int} {effs : List Effect}
    (h : run_once cfg env s c = .ok (s', c', effs)) (w : String)
    (hpl : probeIsLive env w = true) (hm : dictMem s.msg_live w = true) :
    countSend effs w Kind.live = 0 ∧ dictMem s'.msg_live w = true := by
  rcases run_once_cases cfg env s c h with ⟨rfl, rfl, rfl, -⟩ |
    ⟨e0, rest, -, -, rfl, rfl, rfl⟩ |
    ⟨e0, rest, s1, c1, e1, sAdv, s2, c2, e2, e3, hent, h1, hAdv, h2, h3, rfl⟩
  · exact ⟨rfl, hm⟩
  · exact ⟨rfl, hm⟩
  · have hfields := cursorAdv_fields s1
      (s.last_seen_epoch < e0.published_epoch) e0.published_epoch
    rw [← hAdv] at hfields
    obtain ⟨hAl, hAv, hAn, hAp⟩ := hfields
    obtain ⟨hz1, hml1⟩ := step1_live_skip env (newItems env s.last_seen_epoch)
      h1 w hm hpl
    have hml2 : dictMem s2.msg_live w = true := by
      refine step2_msglive_pres cfg env sAdv.msg_live h2 w
        (probeIsLive_not_notLive hpl) ?_
      rw [hAl]; exact hml1
    obtain ⟨hz3, hml3⟩ := step3_live_skip h3 w hml2
    rw [countSend_append, countSend_append, hz1, hz3,
      step2_live_count cfg env sAdv.msg_live h2 w]
    exact ⟨rfl, hml3⟩

theorem run_once_video_skip {cfg : Config} {env : Env} {s : StateDoc} {c : Int}
    {s' : StateDoc} {c' : Int} {effs : List Effect}
    (h : run_once cfg env s c = .ok (s', c', effs)) (w : String)
    (hm : dictMem s.msg_video w = true) :
    countSend effs w Kind.video = 0 ∧ dictMem s'.msg_video w = true := by
  rcases run_once_cases cfg env s c h with ⟨rfl, rfl, rfl, -⟩ |
    ⟨e0, rest, -, -, rfl, rfl, rfl⟩ |
    ⟨e0, rest, s1, c1, e1, sAdv, s2, c2, e2, e3, hent, h1, hAdv, h2, h3, rfl⟩
  · exact ⟨rfl, hm⟩
  · exact ⟨rfl, hm⟩
  · have hfields := cursorAdv_fields s1
      (s.last_seen_epoch < e0.published_epoch) e0.published_epoch
    rw [← hAdv] at hfields
    obtain ⟨hAl, hAv, hAn, hAp⟩ := hfields
    obtain ⟨hz1, hmv1⟩ := step1_video_skip env (newItems env s.last_seen_epoch)
      h1 w hm
    have hmvA : dictMem sAdv.msg_video w = true := by rw [hAv]; exact hmv1
    obtain ⟨hmv2, hz2⟩ := step2_video_skip cfg env sAdv.msg_live h2 w hmvA
    obtain ⟨hz3, hmv3⟩ := step3_video_skip h3 w hmv2
    rw [countSend_append, countSend_append, hz1, hz2, hz3]
    exact ⟨rfl, hmv3⟩

theorem run_once_video_intro {cfg : Config} {env : Env} {s : StateDoc}
    {c : Int} {s' : StateDoc} {c' : Int} {effs : List Effect}
    (h : run_once cfg env s c = .ok (s', c', effs)) (w : String)
    (hm : dictMem s'.msg_video w = true) :
    dictMem s.msg_video w = true ∨ 1 ≤ countSend effs w Kind.video := by
  rcases run_once_cases cfg env s c h with ⟨rfl, rfl, rfl, -⟩ |
    ⟨e0, rest, -, -, rfl, rfl, rfl⟩ |
    ⟨e0, rest, s1, c1, e1, sAdv, s2, c2, e2, e3, hent, h1, hAdv, h2, h3, rfl⟩
  · exact Or.inl hm
  · exact Or.inl hm
  · have hfields := cursorAdv_fields s1
      (s.last_seen_epoch < e0.published_epoch) e0.published_epoch
    rw [← hAdv] at hfields
    obtain ⟨hAl, hAv, hAn, hAp⟩ := hfields
    rw [countSend_append, countSend_append]
    rcases step3_video_intro h3 w hm with hm2 | hcnt3
    · rcases step2_video_intro cfg env sAdv.msg_live h2 w hm2 with hmA | hcnt2
      · rw [hAv] at hmA
        rcases step1_video_intro env (newItems env s.last_seen_epoch) h1 w hmA
          with hm0 | hcnt1
        · exact Or.inl hm0
        · exact Or.inr (by omega)
      · exact Or.inr (by omega)
    · exact Or.inr (by omega)

theorem run_once_notified_mono {cfg : Config} {env : Env} {s : StateDoc}
    {c : Int} {s' : StateDoc} {c' : Int} {effs : List Effect}
    (h : run_once cfg env s c = .ok (s', c', effs)) (w : String)
    (hm : dictMem s.notified w = true) : dictMem s'.notified w = true := by
  rcases run_once_cases cfg env s c h with ⟨rfl, rfl, rfl, -⟩ |
    ⟨e0, rest, -, -, rfl, rfl, rfl⟩ |
    ⟨e0, rest, s1, c1, e1, sAdv, s2, c2, e2, e3, hent, h1, hAdv, h2, h3, rfl⟩
  · exact hm
  · exact hm
  · have hfields := cursorAdv_fields s1
      (s.last_seen_epoch < e0.published_epoch) e0.published_epoch
    rw [← hAdv] at hfields
    obtain ⟨hAl, hAv, hAn, hAp⟩ := hfields
    have hn1 := step1_notified_mono env (newItems env s.last_seen_epoch) h1 w hm
    have hn2 : dictMem s2.notified w = true := by
      refine step2_notified_mono cfg env sAdv.msg_live h2 w ?_
      rw [hAn]; exact hn1
    exact step3_notified_mono h3 w hn2

theorem run_once_msglive_pres {cfg : Config} {env : Env} {s : StateDoc}
    {c : Int} {s' : StateDoc} {c' : Int} {effs : List Effect}
    (h : run_once cfg env s c = .ok (s', c', effs)) (w : String)
    (hnl : probeOkNotLive env w = false) (hm : dictMem s.msg_live w = true) :
    dictMem s'.msg_live w = true := by
  rcases run_once_cases cfg env s c h with ⟨rfl, rfl, rfl, -⟩ |
    ⟨e0, rest, -, -, rfl, rfl, rfl⟩ |
    ⟨e0, rest, s1, c1, e1, sAdv, s2, c2, e2, e3, hent, h1, hAdv, h2, h3, rfl⟩
  · exact hm
  · exact hm
  · have hfields := cursorAdv_fields s1
      (s.last_seen_epoch < e0.published_epoch) e0.published_epoch
    rw [← hAdv] at hfields
    obtain ⟨hAl, hAv, hAn, hAp⟩ := hfields
    have hml1 := step1_msglive_mono env (newItems env s.last_seen_epoch) h1 w hm
    have hml2 : dictMem s2.msg_live w = true := by
      refine step2_msglive_pres cfg env sAdv.msg_live h2 w hnl ?_
      rw [hAl]; exact hml1
    exact step3_msglive_mono h3 w hml2

theorem run_once_pin_structure {cfg : Config} {env : Env} {s : StateDoc}
    {c : Int} {s' : StateDoc} {c' : Int} {effs : List Effect}
    (h : run_once cfg env s c = .ok (s', c', effs)) {p m : Int}
    (hp : s.pinned_message_id = some p) (hpz : p ≠ 0)
    (hmem : Effect.pinMsg m ∈ effs) :
    ∃ l1 l2, effs = l1 ++ Effect.unpinMsg p :: l2 ∧ Effect.pinMsg m ∈ l2 := by
  rcases run_once_cases cfg env s c h with ⟨rfl, rfl, rfl, -⟩ |
    ⟨e0, rest, -, -, rfl, rfl, rfl⟩ |
    ⟨e0, rest, s1, c1, e1, sAdv, s2, c2, e2, e3, hent, h1, hAdv, h2, h3, rfl⟩
  · cases hmem
  · cases hmem
  · have hfields := cursorAdv_fields s1
      (s.last_seen_epoch < e0.published_epoch) e0.published_epoch
    rw [← hAdv] at hfields
    obtain ⟨hAl, hAv, hAn, hAp⟩ := hfields
    have hp2 : s2.pinned_message_id = some p := by
      rw [(step2_pinned cfg env sAdv.msg_live h2).1, hAp,
        (step1_pinned env (newItems env s.last_seen_epoch) h1).1, hp]
    have hm3 : Effect.pinMsg m ∈ e3 := by
      rcases List.mem_append.mp hmem with h4 | h4
      · rcases List.mem_append.mp h4 with h5 | h5
        · obtain ⟨v, k, mid, heq⟩ :=
            step1_effects_send env (newItems env s.last_seen_epoch) h1 _ h5
          cases heq
        · rcases step2_effects_shape cfg env sAdv.msg_live h2 _ h5 with
            ⟨v, mid, heq⟩ | ⟨mid, heq⟩ | ⟨mid, heq⟩ <;> cases heq
      · exact h4
    obtain ⟨l1, hsplit⟩ := step3_pin_structure h3 hp2 hpz hm3
    refine ⟨e1 ++ e2 ++ l1, [Effect.pinMsg m], ?_, List.mem_singleton.mpr rfl⟩
    rw [hsplit]
    simp

theorem run_once_no_edit {cfg : Config} {env : Env} {s : StateDoc} {c : Int}
    {s' : StateDoc} {c' : Int} {effs : List Effect}
    (h : run_once cfg env s c = .ok (s', c', effs)) (m : Int) :
    Effect.editMsg m ∉ effs := by
  rcases run_once_cases cfg env s c h with ⟨rfl, rfl, rfl, -⟩ |
    ⟨e0, rest, -, -, rfl, rfl, rfl⟩ |
    ⟨e0, rest, s1, c1, e1, sAdv, s2, c2, e2, e3, hent, h1, hAdv, h2, h3, rfl⟩
  · exact List.not_mem_nil _
  · exact List.not_mem_nil _
  · intro hmem
    rcases List.mem_append.mp hmem with h4 | h4
    · rcases List.mem_append.mp h4 with h5 | h5
      · obtain ⟨v, k, mid, heq⟩ :=
          step1_effects_send env (newItems env s.last_seen_epoch) h1 _ h5
        cases heq
      · rcases step2_effects_shape cfg env sAdv.msg_live h2 _ h5 with
          ⟨v, mid, heq⟩ | ⟨mid, heq⟩ | ⟨mid, heq⟩ <;> cases heq
    · rcases step3_effects_shape h3 _ h4 with
        ⟨v, k, mid, heq⟩ | ⟨mid, heq⟩ | ⟨mid, heq⟩ <;> cases heq

theorem run_once_cursor {cfg : Config} {env : Env} {s : StateDoc} {c : Int}
    {s' : StateDoc} {c' : Int} {effs : List Effect}
    (h : run_once cfg env s c = .ok (s', c', effs))
    (hb : cfg.baseline_only = false) (hls : 0 < s.last_seen_epoch) :
    s.last_seen_epoch ≤ s'.last_seen_epoch := by
  rcases run_once_cases cfg env s c h with ⟨rfl, rfl, rfl, -⟩ |
    ⟨e0, rest, -, hcond, rfl, rfl, rfl⟩ |
    ⟨e0, rest, s1, c1, e1, sAdv, s2, c2, e2, e3, hent, h1, hAdv, h2, h3, rfl⟩
  · exact le_refl _
  · rcases hcond with hcond | hcond
    · rw [hcond] at hb; cases hb
    · omega
  · obtain ⟨sendE, tail, -, -, hls3, -⟩ := step3_spec cfg env s2 c2 h3
    rw [hls3, (step2_pinned cfg env sAdv.msg_live h2).2, hAdv]
    have hls1 := (step1_pinned env (newItems env s.last_seen_epoch) h1).2
    split
    · simp only
      omega
    · rw [hls1]

theorem run_once_live_pos {cfg : Config} {env : Env} {s : StateDoc} {c : Int}
    {s' : StateDoc} {c' : Int} {effs : List Effect}
    (h : run_once cfg env s c = .ok (s', c', effs)) {w : String}
    (hb : cfg.baseline_only = false) (hls : s.last_seen_epoch ≠ 0)
    (hE : ∃ E ∈ env.entries, E.vid = w ∧ s.last_seen_epoch < E.published_epoch)
    (hw : w ≠ "") (hn : dictMem s.notified w = false)
    (hml : dictMem s.msg_live w = false) (hpl : probeIsLive env w = true) :
    countSend effs w Kind.live = 1 := by
  have hle := run_once_count_le h w Kind.live
  rcases run_once_cases cfg env s c h with ⟨rfl, rfl, rfl, hnil⟩ |
    ⟨e0, rest, -, hcond, rfl, rfl, rfl⟩ |
    ⟨e0, rest, s1, c1, e1, sAdv, s2, c2, e2, e3, hent, h1, hAdv, h2, h3, rfl⟩
  · obtain ⟨E, hmem, -⟩ := hE
    rw [hnil] at hmem
    cases hmem
  · rcases hcond with hcond | hcond
    · rw [hcond] at hb; cases hb
    · exact absurd hcond hls
  · obtain ⟨E, hmem, hEv, hEep⟩ := hE
    have hnew : ∃ it ∈ newItems env s.last_seen_epoch, it.vid = w :=
      ⟨E, (mem_newItems env s.last_seen_epoch E).mpr ⟨hmem, hEep⟩, hEv⟩
    have hc1 := step1_pos env (newItems env s.last_seen_epoch) h1 w hnew hw hn
      hml hpl
    have hc2 := step2_live_count cfg env sAdv.msg_live h2 w
    rw [countSend_append, countSend_append] at hle ⊢
    omega

theorem run_once_convert_pos {cfg : Config} {env : Env} {s : StateDoc}
    {c : Int} {s' : StateDoc} {c' : Int} {effs : List Effect}
    (h : run_once cfg env s c = .ok (s', c', effs)) {w : String}
    (hb : cfg.baseline_only = false) (hls : s.last_seen_epoch ≠ 0)
    (hn : dictMem s.notified w = true) (hml : dictMem s.msg_live w = true)
    (hmv : dictMem s.msg_video w = false)
    (hnl : probeOkNotLive env w = true)
    (hE : ∃ E ∈ env.entries, E.vid = w) :
    countSend effs w Kind.video = 1 := by
  have hle := run_once_count_le h w Kind.video
  rcases run_once_cases cfg env s c h with ⟨rfl, rfl, rfl, hnil⟩ |
    ⟨e0, rest, -, hcond, rfl, rfl, rfl⟩ |
    ⟨e0, rest, s1, c1, e1, sAdv, s2, c2, e2, e3, hent, h1, hAdv, h2, h3, rfl⟩
  · obtain ⟨E, hmem, -⟩ := hE
    rw [hnil] at hmem
    cases hmem
  · rcases hcond with hcond | hcond
    · rw [hcond] at hb; cases hb
    · exact absurd hcond hls
  · have hfields := cursorAdv_fields s1
      (s.last_seen_epoch < e0.published_epoch) e0.published_epoch
    rw [← hAdv] at hfields
    obtain ⟨hAl, hAv, hAn, hAp⟩ := hfields
    have hz1 := step1_skip_notified env (newItems env s.last_seen_epoch) h1 w
      Kind.video hn
    have hmv1 : dictMem s1.msg_video w = false := by
      cases hm1 : dictMem s1.msg_video w with
      | false => rfl
      | true =>
        rcases step1_video_intro env (newItems env s.last_seen_epoch) h1 w hm1
          with hmm | hcc
        · rw [hmv] at hmm; cases hmm
        · rw [hz1] at hcc; cases hcc
    have hml1 := step1_msglive_mono env (newItems env s.last_seen_epoch) h1 w
      hml
    have hsnap : ∃ q ∈ sAdv.msg_live, q.1 = w := by
      refine dictMem_exists sAdv.msg_live w ?_
      rw [hAl]; exact hml1
    have hc2 : 1 ≤ countSend e2 w Kind.video := by
      refine step2_pos cfg env sAdv.msg_live h2 w hsnap hnl ?_ hE
      rw [hAv]; exact hmv1
    rw [countSend_append, countSend_append] at hle ⊢
    omega

/-! ## Iterated-cycle lemmas -/

theorem run_cycles_succ (cfg : Config) (env : Env) (n : Nat) (s : StateDoc)
    (c : Int) {s'' : StateDoc} {c'' : Int} {effs : List Effect}
    (h : run_cycles cfg env (n + 1) s c = .ok (s'', c'', effs)) :
    ∃ s' c' e1 e2, run_once cfg env s c = .ok (s', c', e1) ∧
      run_cycles cfg env n s' c' = .ok (s'', c'', e2) ∧ effs = e1 ++ e2 := by
  unfold run_cycles at h
  cases h1 : run_once cfg env s c with
  | error e => rw [h1] at h; cases h
  | ok r =>
    obtain ⟨s', c', e1⟩ := r
    rw [h1] at h
    simp only at h
    cases h2 : run_cycles cfg env n s' c' with
    | error e => rw [h2] at h; cases h
    | ok r2 =>
      obtain ⟨s2, c2, e2⟩ := r2
      rw [h2] at h
      simp only [Except.ok.injEq, Prod.mk.injEq] at h
      obtain ⟨rfl, rfl, rfl⟩ := h
      exact ⟨s', c', e1, e2, rfl, h2, rfl⟩

theorem run_cycles_zero (cfg : Config) (env : Env) (s : StateDoc) (c : Int)
    {s' : StateDoc} {c' : Int} {effs : List Effect}
    (h : run_cycles cfg env 0 s c = .ok (s', c', effs)) :
    s' = s ∧ c' = c ∧ effs = [] := by
  unfold run_cycles at h
  simp only [Except.ok.injEq, Prod.mk.injEq] at h
  exact ⟨h.1.symm, h.2.1.symm, h.2.2.symm⟩

theorem run_cycles_video_once (cfg : Config) (env : Env) (n : Nat) :
    ∀ {s : StateDoc} {c : Int} {s' : StateDoc} {c' : Int} {effs : List Effect},
      run_cycles cfg env n s c = .ok (s', c', effs) → ∀ w,
        countSend effs w Kind.video ≤ 1 ∧
        (dictMem s.msg_video w = true →
          countSend effs w Kind.video = 0 ∧ dictMem s'.msg_video w = true) := by
  induction n with
  | zero =>
    intro s c s' c' effs h w
    obtain ⟨rfl, -, rfl⟩ := run_cycles_zero cfg env s c h
    exact ⟨Nat.zero_le 1, fun hm => ⟨rfl, hm⟩⟩
  | succ n ih =>
    intro s c s' c' effs h w
    obtain ⟨s1, c1, e1, e2, h1, h2, rfl⟩ := run_cycles_succ cfg env n s c h
    rw [countSend_append]
    constructor
    · cases hc1 : countSend e1 w Kind.video with
      | zero => simpa using (ih h2 w).1
      | succ k =>
        have hle1 := run_once_count_le h1 w Kind.video
        obtain ⟨-, hmv1⟩ := run_once_video_send h1 w (by omega)
        have := ((ih h2 w).2 hmv1).1
        omega
    · intro hm
      obtain ⟨hz1, hmv1⟩ := run_once_video_skip h1 w hm
      obtain ⟨hz2, hmv2⟩ := (ih h2 w).2 hmv1
      rw [hz1, hz2]
      exact ⟨rfl, hmv2⟩

theorem run_cycles_live_once (cfg : Config) (env : Env) (n : Nat) :
    ∀ {s : StateDoc} {c : Int} {s' : StateDoc} {c' : Int} {effs : List Effect},
      run_cycles cfg env n s c = .ok (s', c', effs) → ∀ w,
        countSend effs w Kind.live ≤ 1 ∧
        (probeIsLive env w = true → dictMem s.msg_live w = true →
          countSend effs w Kind.live = 0 ∧ dictMem s'.msg_live w = true) := by
  induction n with
  | zero =>
    intro s c s' c' effs h w
    obtain ⟨rfl, -, rfl⟩ := run_cycles_zero cfg env s c h
    exact ⟨Nat.zero_le 1, fun _ hm => ⟨rfl, hm⟩⟩
  | succ n ih =>
    intro s c s' c' effs h w
    obtain ⟨s1, c1, e1, e2, h1, h2, rfl⟩ := run_cycles_succ cfg env n s c h
    rw [countSend_append]
    constructor
    · cases hc1 : countSend e1 w Kind.live with
      | zero => simpa using (ih h2 w).1
      | succ k =>
        have hle1 := run_once_count_le h1 w Kind.live
        obtain ⟨hpl, hml1, -⟩ := run_once_live_send h1 w (by omega)
        have := ((ih h2 w).2 hpl hml1).1
        omega
    · intro hpl hm
      obtain ⟨hz1, hml1⟩ := run_once_live_skip h1 w hpl hm
      obtain ⟨hz2, hml2⟩ := (ih h2 w).2 hpl hml1
      rw [hz1, hz2]
      exact ⟨rfl, hml2⟩

/-! ## Pin-selector ordering lemmas -/

theorem cptLoop_none (env : Env) (L : List Entry)
    (h : cptLoop env L = none) : ∀ e ∈ L, probeIsLive env e.vid = false := by
  induction L with
  | nil => intro e he; cases he
  | cons a rest ih =>
    intro e he
    unfold cptLoop at h
    cases hyt : yt_api_video_info env a.vid with
    | error er =>
      rw [hyt] at h
      rcases List.mem_cons.mp he with rfl | he2
      · unfold probeIsLive
        rw [hyt]
      · exact ih h e he2
    | ok info =>
      rw [hyt] at h
      simp only at h
      by_cases hl : info.is_live_now = true
      · rw [if_pos hl] at h; cases h
      · rw [if_neg hl] at h
        rcases List.mem_cons.mp he with rfl | he2
        · unfold probeIsLive
          rw [hyt]
          exact Bool.not_eq_true _ ▸ hl
        · exact ih h e he2

theorem cptLoop_some_of_exists (env : Env) (L : List Entry)
    (h : ∃ e ∈ L, probeIsLive env e.vid = true) :
    ∃ r, cptLoop env L = some r := by
  cases hc : cptLoop env L with
  | some r => exact ⟨r, rfl⟩
  | none =>
    obtain ⟨e, hm, hpl⟩ := h
    rw [cptLoop_none env L hc e hm] at hpl
    cases hpl

theorem cptLoop_first (env : Env) (L : List Entry)
    (hsort : List.Pairwise
      (fun a b => b.published_epoch ≤ a.published_epoch) L)
    {t : Entry} {i : LiveInfo} (h : cptLoop env L = some (t, i)) :
    probeIsLive env t.vid = true ∧ i.is_live_now = true ∧
      ∀ e ∈ L, probeIsLive env e.vid = true →
        e.published_epoch ≤ t.published_epoch := by
  induction L with
  | nil => cases h
  | cons a rest ih =>
    obtain ⟨hhead, htl⟩ := List.pairwise_cons.mp hsort
    unfold cptLoop at h
    cases hyt : yt_api_video_info env a.vid with
    | error er =>
      rw [hyt] at h
      obtain ⟨h1, h2, h3⟩ := ih htl h
      refine ⟨h1, h2, ?_⟩
      intro e he hpl
      rcases List.mem_cons.mp he with rfl | he2
      · unfold probeIsLive at hpl
        rw [hyt] at hpl
        cases hpl
      · exact h3 e he2 hpl
    | ok info =>
      rw [hyt] at h
      simp only at h
      by_cases hl : info.is_live_now = true
      · rw [if_pos hl] at h
        simp only [Option.some.injEq, Prod.mk.injEq] at h
        obtain ⟨rfl, rfl⟩ := h
        refine ⟨?_, hl, ?_⟩
        · unfold probeIsLive
          rw [hyt]
          exact hl
        · intro e he hpl
          rcases List.mem_cons.mp he with rfl | he2
          · exact le_refl _
          · exact hhead e he2
      · rw [if_neg hl] at h
        obtain ⟨h1, h2, h3⟩ := ih htl h
        refine ⟨h1, h2, ?_⟩
        intro e he hpl
        rcases List.mem_cons.mp he with rfl | he2
        · unfold probeIsLive at hpl
          rw [hyt] at hpl
          exact absurd hpl hl
        · exact h3 e he2 hpl

/-! ## State-store sanitizer lemmas -/

theorem ensure_dict_self (st : List (String × JValue)) (k : String) :
    ∃ kvs, dictFind (ensure_dict st k) k = some (.jobj kvs) := by
  unfold ensure_dict
  cases hf : dictFind st k with
  | none =>
    rw [dictFind_insert]
    exact ⟨[], by simp⟩
  | some v =>
    cases v with
    | jobj kvs => exact ⟨kvs, hf⟩
    | jnull => rw [dictFind_insert]; exact ⟨[], by simp⟩
    | jbool b => rw [dictFind_insert]; exact ⟨[], by simp⟩
    | jint n => rw [dictFind_insert]; exact ⟨[], by simp⟩
    | jstr s2 => rw [dictFind_insert]; exact ⟨[], by simp⟩
    | jarr xs => rw [dictFind_insert]; exact ⟨[], by simp⟩

theorem ensure_dict_other (st : List (String × JValue)) (k q : String)
    (h : ¬ k = q) : dictFind (ensure_dict st k) q = dictFind st q := by
  unfold ensure_dict
  cases hf : dictFind st k with
  | none => rw [dictFind_insert, if_neg h]
  | some v =>
    cases v <;> first
      | rfl
      | rw [dictFind_insert, if_neg h]

theorem ensure_dict_dict_pres (st : List (String × JValue)) (k q : String)
    (h : ∃ kvs, dictFind st q = some (.jobj kvs)) :
    ∃ kvs, dictFind (ensure_dict st k) q = some (.jobj kvs) := by
  by_cases hk : k = q
  · subst hk
    exact ensure_dict_self st k
  · rw [ensure_dict_other st k q hk]
    exact h

theorem fix_last_seen_other (st : List (String × JValue)) (q : String)
    (h : ¬ ("last_seen_epoch" : String) = q) :
    dictFind (fix_last_seen st) q = dictFind st q := by
  unfold fix_last_seen
  split
  · rfl
  · rw [dictFind_insert, if_neg h]

theorem fix_last_seen_self (st : List (String × JValue)) :
    pyIsInstInt ((dictFind (fix_last_seen st) "last_seen_epoch").getD
      (.jint 0)) = true := by
  unfold fix_last_seen
  split
  · assumption
  · rw [dictFind_insert]
    simp [pyIsInstInt]

theorem fix_pinned_other (st : List (String × JValue)) (q : String)
    (h : ¬ ("pinned_message_id" : String) = q) :
    dictFind (fix_pinned st) q = dictFind st q := by
  unfold fix_pinned
  cases hf : dictFind st "pinned_message_id" with
  | none => rfl
  | some pv =>
    dsimp only
    split
    · rfl
    · cases hi : pyInt? pv with
      | some n => rw [dictFind_insert, if_neg h]
      | none =>
        rw [dictFind_erase, if_neg (fun hc => h hc.symm)]

theorem fix_pinned_self (st : List (String × JValue)) :
    (match dictFind (fix_pinned st) "pinned_message_id" with
     | none => true
     | some pv => pyIsInstInt pv) = true := by
  unfold fix_pinned
  cases hf : dictFind st "pinned_message_id" with
  | none => rw [hf]
  | some pv =>
    dsimp only
    by_cases hi : pyIsInstInt pv = true
    · rw [if_pos hi, hf]
      dsimp only
      exact hi
    · rw [if_neg hi]
      cases hn : pyInt? pv with
      | some n =>
        rw [dictFind_insert]
        simp [pyIsInstInt]
      | none =>
        rw [dictFind_erase]
        simp

theorem sanitize_state_shape (v : JValue) :
    canonicalShape (sanitize_state v) = true := by
  unfold sanitize_state
  dsimp only
  set st0 : List (String × JValue) := (match v with
    | .jobj kvs => kvs
    | _ => []) with hst0
  have hne1 : ¬ ("last_seen_epoch" : String) = "notified" := by decide
  have hne2 : ¬ ("last_seen_epoch" : String) = "msg_live" := by decide
  have hne3 : ¬ ("last_seen_epoch" : String) = "msg_video" := by decide
  have hne4 : ¬ ("last_seen_epoch" : String) = "last_kind" := by decide
  have hpe1 : ¬ ("pinned_message_id" : String) = "notified" := by decide
  have hpe2 : ¬ ("pinned_message_id" : String) = "msg_live" := by decide
  have hpe3 : ¬ ("pinned_message_id" : String) = "msg_video" := by decide
  have hpe4 : ¬ ("pinned_message_id" : String) = "last_kind" := by decide
  have hpe5 : ¬ ("pinned_message_id" : String) = "last_seen_epoch" := by decide
  set st4 : List (String × JValue) :=
    ensure_dict (ensure_dict (ensure_dict (ensure_dict st0 "notified")
      "msg_live") "msg_video") "last_kind" with hst4
  have hd1 : ∃ kvs, dictFind st4 "notified" = some (.jobj kvs) := by
    rw [hst4]
    exact ensure_dict_dict_pres _ _ _ (ensure_dict_dict_pres _ _ _
      (ensure_dict_dict_pres _ _ _ (ensure_dict_self st0 "notified")))
  have hd2 : ∃ kvs, dictFind st4 "msg_live" = some (.jobj kvs) := by
    rw [hst4]
    exact ensure_dict_dict_pres _ _ _ (ensure_dict_dict_pres _ _ _
      (ensure_dict_self _ "msg_live"))
  have hd3 : ∃ kvs, dictFind st4 "msg_video" = some (.jobj kvs) := by
    rw [hst4]
    exact ensure_dict_dict_pres _ _ _ (ensure_dict_self _ "msg_video")
  have hd4 : ∃ kvs, dictFind st4 "last_kind" = some (.jobj kvs) := by
    rw [hst4]
    exact ensure_dict_self _ "last_kind"
  obtain ⟨k1, hk1⟩ := hd1
  obtain ⟨k2, hk2⟩ := hd2
  obtain ⟨k3, hk3⟩ := hd3
  obtain ⟨k4, hk4⟩ := hd4
  show canonicalShape (.jobj (fix_pinned (fix_last_seen st4))) = true
  unfold canonicalShape
  simp only [Bool.and_eq_true]
  refine ⟨⟨⟨⟨⟨?_, ?_⟩, ?_⟩, ?_⟩, ?_⟩, ?_⟩
  · rw [fix_pinned_other _ _ hpe1, fix_last_seen_other _ _ hne1, hk1]
    rfl
  · rw [fix_pinned_other _ _ hpe2, fix_last_seen_other _ _ hne2, hk2]
    rfl
  · rw [fix_pinned_other _ _ hpe3, fix_last_seen_other _ _ hne3, hk3]
    rfl
  · rw [fix_pinned_other _ _ hpe4, fix_last_seen_other _ _ hne4, hk4]
    rfl
  · rw [fix_pinned_other _ _ hpe5]
    exact fix_last_seen_self st4
  · exact fix_pinned_self (fix_last_seen st4)

theorem step1_send_from (env : Env) (L : List Entry) :
    ∀ {s : StateDoc} {c : Int} {s' : StateDoc} {c' : Int} {effs : List Effect},
      step1 env L s c = .ok (s', c', effs) → ∀ v k m,
        Effect.send v k m ∈ effs → ∃ it ∈ L, it.vid = v := by
  induction L with
  | nil =>
    intro s c s' c' effs h v k m hmem
    obtain ⟨-, -, rfl⟩ := step1_nil env s c h
    cases hmem
  | cons it rest ih =>
    intro s c s' c' effs h v k m hmem
    obtain ⟨s1, c1, e1, e2, h1, h2, rfl⟩ := step1_cons env it rest s c h
    rcases List.mem_append.mp hmem with h3 | h3
    · rcases step1Item_spec env s c it h1 with ⟨rfl, -⟩ | ⟨kind, heq, -⟩
      · cases h3
      · rw [heq] at h3
        rcases List.mem_singleton.mp h3 with h4
        injection h4 with h5 h6 h7
        exact ⟨it, List.mem_cons_self it rest, h5.symm⟩
    · obtain ⟨it2, hm2, hv2⟩ := ih h2 v k m h3
      exact ⟨it2, List.mem_cons_of_mem it hm2, hv2⟩

/-! ## Claim theorems -/

/-- C1: for every item id and every notification kind in {live, video},
across any number of repeated `run_once` cycles over the same observed feed
(same entries and same probe results), at most one post is ever sent for the
pair (id, kind): an id already recorded in the state's `notified` /
`msg_live` / `msg_video` maps under a kind is never posted again under that
kind. -/
theorem claim_no_duplicate_notifications (cfg : Config) (env : Env) (n : Nat)
    (s : StateDoc) (c : Int) {s' : StateDoc} {c' : Int} {effs : List Effect}
    (h : run_cycles cfg env n s c = .ok (s', c', effs)) (w : String)
    (k : Kind) : countSend effs w k ≤ 1 := by
  cases k with
  | live => exact (run_cycles_live_once cfg env n h w).1
  | video => exact (run_cycles_video_once cfg env n h w).1

/-- Witness for C1: three cycles over the fixed world `envLive` from the
baselined state post each of ("a", video) and ("b", live) exactly once. -/
theorem claim_no_duplicate_notifications_witness :
    countSend [Effect.send "a" Kind.video 0, Effect.send "b" Kind.live 1,
      Effect.pinMsg 1] "b" Kind.live ≤ 1 := by
  have h : run_cycles cfgPin envLive 3 sBase 0 = .ok
      (⟨[("a", 555), ("b", 555)], [("b", 1)], [("a", 0)],
        [("a", Kind.video), ("b", Kind.live)], 20, some 1, some "b",
        some Kind.live⟩, 2,
       [Effect.send "a" Kind.video 0, Effect.send "b" Kind.live 1,
        Effect.pinMsg 1]) := by rfl
  exact claim_no_duplicate_notifications cfgPin envLive 3 sBase 0 h "b"
    Kind.live

/-- C2: for every non-empty feed, a `run_once` cycle starting from a state
whose cursor is absent-or-0 emits no side effect at all and persists only a
non-zero cursor (given that the wall clock `int(time.time())` is non-zero,
which covers the case of a feed whose newest entry has epoch 0). -/
theorem claim_baseline_quiet (cfg : Config) (env : Env) (s : StateDoc)
    (c : Int) (e0 : Entry) (rest : List Entry)
    (hent : env.entries = e0 :: rest) (hls : s.last_seen_epoch = 0)
    (hnow : env.now ≠ 0) :
    ∃ t, t ≠ 0 ∧
      run_once cfg env s c = .ok ({ s with last_seen_epoch := t }, c, []) := by
  refine ⟨if e0.published_epoch ≠ 0 then e0.published_epoch else env.now, ?_,
    run_once_baseline cfg env s c e0 rest hent (Or.inr hls)⟩
  split
  · assumption
  · exact hnow

/-- Witness for C2: the empty store against the two-entry feed. -/
theorem claim_baseline_quiet_witness :
    ∃ t, t ≠ 0 ∧ run_once cfgPin envLive sEmpty 0 =
      .ok ({ sEmpty with last_seen_epoch := t }, 0, []) :=
  claim_baseline_quiet cfgPin envLive sEmpty 0 entryB [entryA] rfl rfl
    (by decide)

/-- C3: an item observed live in one cycle and not-live in a later cycle is
posted exactly once as `live` and exactly once as `video` — also when the
convert step fails (probe exception) in an intermediate cycle and is retried
— and no caption-edit is ever issued, so the claim's "video id equals live
id when conversion-by-edit succeeded" holds vacuously: this code converts by
posting a new message and deleting the old one, never by editing. -/
theorem claim_live_to_video_convert_once (cfg : Config)
    (env1 envf env2 : Env) (s0 s1 sf s2 s2' : StateDoc)
    (c0 c1 cf c2 c2' : Int) (e1 ef e2 e2' : List Effect) (w : String)
    (E : Entry)
    (hb : cfg.baseline_only = false) (hls : 0 < s0.last_seen_epoch)
    (hent1 : E ∈ env1.entries) (hEv : E.vid = w)
    (hEep : s0.last_seen_epoch < E.published_epoch) (hw : w ≠ "")
    (hfn : dictMem s0.notified w = false)
    (hfl : dictMem s0.msg_live w = false)
    (hfv : dictMem s0.msg_video w = false)
    (hpl1 : probeIsLive env1 w = true)
    (hplf : yt_api_video_info envf w = .error ())
    (hnl2 : probeOkNotLive env2 w = true)
    (hent2 : ∃ E2 ∈ env2.entries, E2.vid = w)
    (h1 : run_once cfg env1 s0 c0 = .ok (s1, c1, e1))
    (h2 : run_once cfg env2 s1 c1 = .ok (s2, c2, e2))
    (hf : run_once cfg envf s1 c1 = .ok (sf, cf, ef))
    (h2' : run_once cfg env2 sf cf = .ok (s2', c2', e2')) :
    (countSend (e1 ++ e2) w Kind.live = 1 ∧
      countSend (e1 ++ e2) w Kind.video = 1) ∧
    (countSend (e1 ++ ef ++ e2') w Kind.live = 1 ∧
      countSend (e1 ++ ef ++ e2') w Kind.video = 1) ∧
    (∀ m, Effect.editMsg m ∉ e1 ++ e2 ++ ef ++ e2') := by
  -- facts about the first cycle
  have hc1live : countSend e1 w Kind.live = 1 :=
    run_once_live_pos h1 hb (by omega) ⟨E, hent1, hEv, hEep⟩ hw hfn hfl hpl1
  obtain ⟨-, hml1, hn1⟩ := run_once_live_send h1 w (by omega)
  have hc1video : countSend e1 w Kind.video = 0 := by
    cases hcv : countSend e1 w Kind.video with
    | zero => rfl
    | succ k =>
      obtain ⟨hnl, -⟩ := run_once_video_send h1 w (by omega)
      rw [probeIsLive_not_notLive hpl1] at hnl
      cases hnl
  have hmv1 : dictMem s1.msg_video w = false := by
    cases hmv : dictMem s1.msg_video w with
    | false => rfl
    | true =>
      rcases run_once_video_intro h1 w hmv with hm0 | hcv
      · rw [hfv] at hm0; cases hm0
      · rw [hc1video] at hcv; cases hcv
  have hls1 : 0 < s1.last_seen_epoch :=
    lt_of_lt_of_le hls (run_once_cursor h1 hb hls)
  -- facts about the probe-failure world
  have hpf1 : probeIsLive envf w = false := by
    unfold probeIsLive; rw [hplf]
  have hpf2 : probeOkNotLive envf w = false := by
    unfold probeOkNotLive; rw [hplf]
  -- scenario A: immediate conversion in the second cycle
  have hc2video : countSend e2 w Kind.video = 1 :=
    run_once_convert_pos h2 hb (by omega) hn1 hml1 hmv1 hnl2 hent2
  have hc2live : countSend e2 w Kind.live = 0 := by
    cases hcv : countSend e2 w Kind.live with
    | zero => rfl
    | succ k =>
      obtain ⟨hpl, -, -⟩ := run_once_live_send h2 w (by omega)
      rw [probeOkNotLive_not_live hnl2] at hpl
      cases hpl
  -- scenario B: the convert step fails once, then is retried
  have hcflive : countSend ef w Kind.live = 0 := by
    cases hcv : countSend ef w Kind.live with
    | zero => rfl
    | succ k =>
      obtain ⟨hpl, -, -⟩ := run_once_live_send hf w (by omega)
      rw [hpf1] at hpl
      cases hpl
  have hcfvideo : countSend ef w Kind.video = 0 := by
    cases hcv : countSend ef w Kind.video with
    | zero => rfl
    | succ k =>
      obtain ⟨hnl, -⟩ := run_once_video_send hf w (by omega)
      rw [hpf2] at hnl
      cases hnl
  have hnf : dictMem sf.notified w = true := run_once_notified_mono hf w hn1
  have hmlf : dictMem sf.msg_live w = true :=
    run_once_msglive_pres hf w hpf2 hml1
  have hmvf : dictMem sf.msg_video w = false := by
    cases hmv : dictMem sf.msg_video w with
    | false => rfl
    | true =>
      rcases run_once_video_intro hf w hmv with hm0 | hcv
      · rw [hmv1] at hm0; cases hm0
      · rw [hcfvideo] at hcv; cases hcv
  have hlsf : 0 < sf.last_seen_epoch :=
    lt_of_lt_of_le hls1 (run_once_cursor hf hb hls1)
  have hc2'video : countSend e2' w Kind.video = 1 :=
    run_once_convert_pos h2' hb (by omega) hnf hmlf hmvf hnl2 hent2
  have hc2'live : countSend e2' w Kind.live = 0 := by
    cases hcv : countSend e2' w Kind.live with
    | zero => rfl
    | succ k =>
      obtain ⟨hpl, -, -⟩ := run_once_live_send h2' w (by omega)
      rw [probeOkNotLive_not_live hnl2] at hpl
      cases hpl
  refine ⟨⟨?_, ?_⟩, ⟨?_, ?_⟩, ?_⟩
  · rw [countSend_append, hc1live, hc2live]
  · rw [countSend_append, hc1video, hc2video]
  · rw [countSend_append, countSend_append, hc1live, hcflive, hc2'live]
  · rw [countSend_append, countSend_append, hc1video, hcfvideo, hc2'video]
  · intro m hmem
    rcases List.mem_append.mp hmem with h4 | h4
    · rcases List.mem_append.mp h4 with h5 | h5
      · rcases List.mem_append.mp h5 with h6 | h6
        · exact run_once_no_edit h1 m h6
        · exact run_once_no_edit h2 m h6
      · exact run_once_no_edit hf m h5
    · exact run_once_no_edit h2' m h4

/-- Witness for C3: "b" goes live in `envLive`, its probe fails once in
`envFail`, and it is converted in `envDone`; both the direct and the retried
schedule post exactly one live and one video notification. -/
theorem claim_live_to_video_convert_once_witness :
    (countSend ([Effect.send "a" Kind.video 0, Effect.send "b" Kind.live 1] ++
      [Effect.send "b" Kind.video 2, Effect.deleteMsg 1]) "b" Kind.live = 1 ∧
     countSend ([Effect.send "a" Kind.video 0, Effect.send "b" Kind.live 1] ++
      [Effect.send "b" Kind.video 2, Effect.deleteMsg 1]) "b" Kind.video = 1) ∧
    (countSend ([Effect.send "a" Kind.video 0, Effect.send "b" Kind.live 1] ++
      [] ++ [Effect.send "b" Kind.video 2, Effect.deleteMsg 1]) "b"
        Kind.live = 1 ∧
     countSend ([Effect.send "a" Kind.video 0, Effect.send "b" Kind.live 1] ++
      [] ++ [Effect.send "b" Kind.video 2, Effect.deleteMsg 1]) "b"
        Kind.video = 1) := by
  have H := claim_live_to_video_convert_once cfgNoPin envLive envFail envDone
    sBase
    ⟨[("a", 555), ("b", 555)], [("b", 1)], [("a", 0)],
      [("a", Kind.video), ("b", Kind.live)], 20, none, none, none⟩
    ⟨[("a", 555), ("b", 555)], [("b", 1)], [("a", 0)],
      [("a", Kind.video), ("b", Kind.live)], 20, none, none, none⟩
    ⟨[("a", 555), ("b", 555)], [], [("a", 0), ("b", 2)],
      [("a", Kind.video), ("b", Kind.video)], 20, none, none, none⟩
    ⟨[("a", 555), ("b", 555)], [], [("a", 0), ("b", 2)],
      [("a", Kind.video), ("b", Kind.video)], 20, none, none, none⟩
    0 2 2 3 3
    [Effect.send "a" Kind.video 0, Effect.send "b" Kind.live 1]
    []
    [Effect.send "b" Kind.video 2, Effect.deleteMsg 1]
    [Effect.send "b" Kind.video 2, Effect.deleteMsg 1]
    "b" entryB
    rfl (by decide) (by decide) rfl (by decide) (by decide)
    rfl rfl rfl
    (by decide) rfl (by decide)
    ⟨entryB, by decide, rfl⟩
    (by rfl) (by rfl) (by rfl) (by rfl)
  exact ⟨H.1, H.2.1⟩

/-- Counterexample for C4: the claim says no exception is ever thrown for a
probe failure anywhere in the cycle, yet a probe failure on a new feed item
(`src/main.py:276`, outside any `try`) propagates and aborts `run_once`. -/
theorem claim_probe_failure_cex :
    run_once cfgNoPin envC4 sBase 0 = .error () := by rfl

/-- C4 as amended: the classifier returns false on missing or ended
broadcast signals, on an empty id, and on an empty API item list; and the
conversion loop catches a probe failure and leaves the state untouched for
that item — but a failed probe itself raises (`r.raise_for_status()`), and
the new-item loop and the final pin-target probe propagate that exception
(see the counterexample). -/
theorem claim_probe_failure_amended (env : Env) (d : LiveDetails)
    (cfg : Config) (s : StateDoc) (c : Int) (p : String × Int) (q : String)
    (hd : d.actualStartTime = none ∨ d.actualEndTime.isSome = true)
    (herr : yt_api_video_info env p.1 = .error ())
    (hq : env.probe q = some none) (hqe : q ≠ "") :
    (classify d).is_live_now = false ∧
    yt_api_video_info env "" = .ok ⟨false, none, none⟩ ∧
    yt_api_video_info env q = .ok ⟨false, none, none⟩ ∧
    step2Item cfg env s c p = (s, c, []) := by
  refine ⟨?_, ?_, ?_, step2Item_err herr⟩
  · rcases hd with hd | hd
    · simp [classify, hd]
    · cases he : d.actualEndTime with
      | none => rw [he] at hd; cases hd
      | some x => simp [classify, he]
  · unfold yt_api_video_info
    simp
  · unfold yt_api_video_info
    rw [if_neg hqe, hq]

/-- Witness for C4's amended theorem, at a payload with no start marker and
the mixed-failure world. -/
theorem claim_probe_failure_amended_witness :
    (classify ⟨none, none, none, none⟩).is_live_now = false ∧
    yt_api_video_info envMixed "" = .ok ⟨false, none, none⟩ ∧
    yt_api_video_info envMixed "y" = .ok ⟨false, none, none⟩ ∧
    step2Item cfgPin envMixed sEmpty 0 ("x", 1) = (sEmpty, 0, []) :=
  claim_probe_failure_amended envMixed ⟨none, none, none, none⟩ cfgPin sEmpty
    0 ("x", 1) "y" (Or.inl rfl) rfl rfl (by decide)

/-- Counterexample for C5: from a state whose cursor (100) is ahead of the
only feed entry (epoch 50), the pin-reconciliation path still posts that
entry — a side-effecting post for an item at-or-before the baseline
cursor. -/
theorem claim_no_retroactive_cex :
    run_once cfgPin envC5 sAhead 0 = .ok
      (⟨[("a", 555)], [], [("a", 0)], [("a", Kind.video)], 100, some 0,
        some "a", some Kind.video⟩, 1,
       [Effect.send "a" Kind.video 0, Effect.pinMsg 0]) ∧
    countSend [Effect.send "a" Kind.video 0, Effect.pinMsg 0] "a"
      Kind.video = 1 ∧
    entryA50.published_epoch ≤ sAhead.last_seen_epoch := by
  refine ⟨by rfl, by rfl, by decide⟩

/-- C5 as amended: the new-item notification loop never posts an item whose
publish time is at or before the cursor — every post it emits belongs to a
feed entry strictly newer than `last_seen_epoch` — but the convert and
pin-reconciliation paths of `run_once` can post items at-or-before the
cursor (see the counterexample). -/
theorem claim_no_retroactive_amended (env : Env) (s : StateDoc) (c : Int)
    {s' : StateDoc} {c' : Int} {effs : List Effect}
    (h1 : step1 env (newItems env s.last_seen_epoch) s c = .ok (s', c', effs))
    (v : String) (k : Kind) (m : Int) (hmem : Effect.send v k m ∈ effs) :
    ∃ E ∈ env.entries, E.vid = v ∧ s.last_seen_epoch < E.published_epoch := by
  obtain ⟨it, hit, hv⟩ :=
    step1_send_from env (newItems env s.last_seen_epoch) h1 v k m hmem
  obtain ⟨hm2, hlt⟩ := (mem_newItems env s.last_seen_epoch it).mp hit
  exact ⟨it, hm2, hv, hlt⟩

/-- Witness for C5's amended theorem: the posts of the new-item loop over
`envLive` from cursor 5 all belong to entries newer than 5. -/
theorem claim_no_retroactive_amended_witness :
    ∃ E ∈ envLive.entries, E.vid = "b" ∧
      sBase.last_seen_epoch < E.published_epoch := by
  have h1 : step1 envLive (newItems envLive sBase.last_seen_epoch) sBase 0 =
      .ok (⟨[("a", 555), ("b", 555)], [("b", 1)], [("a", 0)],
        [("a", Kind.video), ("b", Kind.live)], 5, none, none, none⟩, 2,
       [Effect.send "a" Kind.video 0, Effect.send "b" Kind.live 1]) := by rfl
  exact claim_no_retroactive_amended envLive sBase 0 h1 "b" Kind.live 1
    (by decide)

/-- C6: the persisted pin state is a single optional message id (so at most
one message is ever recorded as self-owned), and any cycle that pins a new
target first issues an unpin of the truthy previously recorded pin: in the
effect trace the unpin of the old id precedes the pin of the new one. -/
theorem claim_single_pin (cfg : Config) (env : Env) (s : StateDoc) (c : Int)
    {s' : StateDoc} {c' : Int} {effs : List Effect}
    (h : run_once cfg env s c = .ok (s', c', effs)) {p m : Int}
    (hp : s.pinned_message_id = some p) (hpz : p ≠ 0)
    (hmem : Effect.pinMsg m ∈ effs) :
    ∃ l1 l2, effs = l1 ++ Effect.unpinMsg p :: l2 ∧ Effect.pinMsg m ∈ l2 :=
  run_once_pin_structure h hp hpz hmem

/-- Witness for C6: a cycle that moves the pin from message 99 to message 7
unpins 99 before pinning 7. -/
theorem claim_single_pin_witness :
    ∃ l1 l2, [Effect.unpinMsg 99, Effect.pinMsg 7] =
      l1 ++ Effect.unpinMsg 99 :: l2 ∧ Effect.pinMsg 7 ∈ l2 := by
  have h : run_once cfgPin envC5 sPin 0 = .ok
      (⟨[("a", 1)], [], [("a", 7)], [("a", Kind.video)], 100, some 7,
        some "a", some Kind.video⟩, 0,
       [Effect.unpinMsg 99, Effect.pinMsg 7]) := by rfl
  exact claim_single_pin cfgPin envC5 sPin 0 h rfl (by decide) (by decide)

/-- Counterexample for C7: on a candidate list that is not newest-first,
`choose_pin_target` returns the first live entry in list order — here the
entry published at epoch 10 — even though another live candidate was
published later (epoch 20), so it does not return the most recently
published live candidate for every list. -/
theorem claim_pin_priority_cex :
    choose_pin_target envC7 [entryA, entryB] =
      .ok (entryA, ⟨true, some 3, none⟩) ∧
    probeIsLive envC7 entryB.vid = true ∧
    entryA.published_epoch < entryB.published_epoch := by
  refine ⟨by rfl, by rfl, by decide⟩

/-- C7 as amended: when the feed is sorted newest-first (as the source
assumes of the RSS feed), the selector returns the entry its own probe
classifies, picking the most recently published candidate whose probe
reports live if any does, and otherwise the head of the feed — the most
recently published candidate overall — with a not-live classification
(kind `video`). A live item published earlier still wins over a not-live
item published later. -/
theorem claim_pin_priority_amended (env : Env) (e0 : Entry)
    (rest : List Entry) (hent : env.entries = e0 :: rest)
    (hsort : List.Pairwise
      (fun a b => b.published_epoch ≤ a.published_epoch) env.entries) :
    (∀ t i, choose_pin_target env env.entries = .ok (t, i) →
      yt_api_video_info env t.vid = .ok i) ∧
    ((∃ e ∈ env.entries, probeIsLive env e.vid = true) →
      ∃ t i, choose_pin_target env env.entries = .ok (t, i) ∧
        i.is_live_now = true ∧ probeIsLive env t.vid = true ∧
        ∀ e ∈ env.entries, probeIsLive env e.vid = true →
          e.published_epoch ≤ t.published_epoch) ∧
    ((∀ e ∈ env.entries, probeIsLive env e.vid = false) →
      ∀ i0, yt_api_video_info env e0.vid = .ok i0 →
        choose_pin_target env env.entries = .ok (e0, i0) ∧
          i0.is_live_now = false ∧
          ∀ e ∈ env.entries, e.published_epoch ≤ e0.published_epoch) := by
  refine ⟨fun t i h => choose_sound env env.entries h, ?_, ?_⟩
  · intro hex
    obtain ⟨r, hr⟩ := cptLoop_some_of_exists env env.entries hex
    obtain ⟨t, i⟩ := r
    obtain ⟨h1, h2, h3⟩ := cptLoop_first env env.entries hsort hr
    refine ⟨t, i, ?_, h2, h1, h3⟩
    unfold choose_pin_target
    rw [hr]
  · intro hall i0 hi0
    have hcpt : cptLoop env env.entries = none := by
      cases hc : cptLoop env env.entries with
      | none => rfl
      | some r =>
        obtain ⟨t, i⟩ := r
        obtain ⟨hyt, hl, hm⟩ := cptLoop_sound env env.entries hc
        have := hall t hm
        simp [probeIsLive, hyt, hl] at this
    refine ⟨?_, ?_, ?_⟩
    · unfold choose_pin_target
      rw [hcpt, hent]
      dsimp only
      rw [hi0]
    · have := hall e0 (by rw [hent]; exact List.mem_cons_self e0 rest)
      unfold probeIsLive at this
      rw [hi0] at this
      exact this
    · intro e he
      rw [hent] at he hsort
      obtain ⟨hhead, -⟩ := List.pairwise_cons.mp hsort
      rcases List.mem_cons.mp he with rfl | he2
      · exact le_refl _
      · exact hhead e he2

/-- Witness for C7's amended theorem: over the newest-first feed of
`envLive` (epochs 20, 10) with "b" broadcasting, the selector picks a live
candidate of maximal publish time. -/
theorem claim_pin_priority_amended_witness :
    ∃ t i, choose_pin_target envLive envLive.entries = .ok (t, i) ∧
      i.is_live_now = true ∧ probeIsLive envLive t.vid = true ∧
      ∀ e ∈ envLive.entries, probeIsLive envLive e.vid = true →
        e.published_epoch ≤ t.published_epoch :=
  (claim_pin_priority_amended envLive entryB [entryA] rfl (by decide)).2.1
    ⟨entryB, by decide, by rfl⟩

/-- Counterexample for C8: the claim promises an *integer* `last_seen_epoch`
in the sanitized document, but Python's `isinstance(True, int)` holds — a
legacy document storing `last_seen_epoch: true` passes the check untouched,
and the sanitized document carries a boolean, not a JSON integer. -/
theorem claim_state_shape_cex :
    sanitize_state (JValue.jobj [("last_seen_epoch", JValue.jbool true)]) =
      JValue.jobj [("last_seen_epoch", JValue.jbool true),
        ("notified", JValue.jobj []), ("msg_live", JValue.jobj []),
        ("msg_video", JValue.jobj []), ("last_kind", JValue.jobj [])] ∧
    isJIntOpt (jget (sanitize_state (JValue.jobj
      [("last_seen_epoch", JValue.jbool true)])) "last_seen_epoch") =
      false := by
  exact ⟨rfl, rfl⟩

/-- C8 as amended: for every input — a missing file, unreadable bytes or a
parse error (`raw = none`), a non-dict JSON value, or a legacy document with
missing or wrongly-typed substructures — the loader pipeline never raises (it
is a total function by construction) and always yields a document whose
`notified`, `msg_live`, `msg_video` and `last_kind` are dicts, whose
`last_seen_epoch` passes Python's `isinstance(int)` check (which also admits
the booleans a legacy document may hold there), and whose
`pinned_message_id` is absent or passes that check. -/
theorem claim_state_shape_amended (raw : Option JValue) :
    canonicalShape (sanitize_state (load_state raw)) = true :=
  sanitize_state_shape (load_state raw)

/-- Counterexample for C9: `save_state` performs a single direct write to
`state.json` — not a write to a temporary file followed by a rename as the
claim states (compare `save_state_spec`, the op sequence the spec's
write-to-temp-then-rename discipline would produce). -/
theorem claim_atomic_save_cex :
    save_state (JValue.jobj []) = [FsOp.write STATE_FILE (JValue.jobj [])] ∧
    ((save_state (JValue.jobj [])).all fun op => !isRename op) = true ∧
    save_state_spec (JValue.jobj []) =
      [FsOp.write (STATE_FILE ++ ".tmp") (JValue.jobj []),
       FsOp.rename (STATE_FILE ++ ".tmp") STATE_FILE] := by
  exact ⟨rfl, rfl, rfl⟩

/-- C9 as amended: `save_state` writes the serialized document directly over
the state file, with no temporary file and no rename, so an interrupted save
can leave a half-written file; the system still never fails a later cycle
because `load_state` returns the empty document on any read or parse
error. -/
theorem claim_atomic_save_amended (st : JValue) :
    save_state st = [FsOp.write STATE_FILE st] ∧
    ((save_state st).all fun op => !isRename op) = true ∧
    load_state none = JValue.jobj [] :=
  ⟨rfl, rfl, rfl⟩

/-- C10: when the feed returns no entries, `run_once` performs no side
effect at all and persists exactly the document it loaded: every
notification, pin and cursor field is unchanged. -/
theorem claim_empty_feed_frame (cfg : Config)
    (probe : String → Option (Option LiveDetails)) (now : Int)
    (pinOk : Int → Bool) (s : StateDoc) (c : Int) :
    run_once cfg ⟨[], probe, now, pinOk⟩ s c = .ok (s, c, []) := rfl
